import Mathlib

/-!
Verification development for the motormongo object-document mapper.

The definitions below are a shallow embedding of the Python sources:
  * `src/motormongo/fields/*.py` (the descriptor/field layer),
  * `src/motormongo/abstracts/document.py` (the `Document` base class),
  * `src/motormongo/utils/formatter.py` (timestamp stamping),
  * `src/motormongo/mongo/database.py` (index synchronisation).

Python values are modelled by the inductive `Value`; instances carry their
attribute dictionary as an association list in insertion order; machine
behaviour that raises is modelled with `Except`.  Datetimes are modelled as
UTC tick counts (`Nat`); string-to-datetime parsing against the configured
format list never matters for the properties below, so it is kept as an
explicit `parse` parameter of the assignment semantics.
-/

namespace Motormongo

/-- The concrete field kinds of `src/motormongo/fields` that the embedding
covers (binary fields are intentionally out of scope: the spec treats them as
one-way).  Constraint options kept are the ones the claims exercise. -/
inductive FlatKind where
  | stringF (min_length max_length : Option Nat)
  | integerF (min_value max_value : Option Int)
  | floatF (min_value max_value : Option Rat)
  | booleanF
  | dateTimeF (auto_now auto_now_add : Bool)
  | enumF (members : List String)
  | geoF (return_as_list : Bool)
  | referenceF
  deriving Repr, DecidableEq

/-- Model of the Python/BSON values the library manipulates.  `dt` is a
datetime as a UTC tick count, `oid` a `bson.ObjectId` carrying its 24-chars
hex rendering, `enum` an enum member identified by its underlying string
value, `emb` an `EmbeddedDocument` instance carrying its class schema (the
declared flat field kinds) and its attribute dictionary. -/
inductive Value where
  | none
  | str (s : String)
  | int (n : Int)
  | float (q : Rat)
  | bool (b : Bool)
  | dt (t : Nat)
  | enum (s : String)
  | oid (s : String)
  | dict (kvs : List (String × Value))
  | list (items : List Value)
  | emb (schema : List (String × FlatKind)) (fields : List (String × Value))
  deriving Repr, BEq

end Motormongo

namespace Motormongo

/-- Python truthiness (`bool(v)`) for the modelled values: used by
`DateTimeField.__set__` (`not obj.__dict__.get(self.name)`) and by
`find_one_and_update_empty_fields` (`not existing_doc[k]`). -/
def falsy : Value → Bool
  | .none => true
  | .str s => s.isEmpty
  | .int n => n == 0
  | .float q => q == 0
  | .bool b => !b
  | .dt _ => false
  | .enum _ => false
  | .oid _ => false
  | .dict kvs => kvs.isEmpty
  | .list items => items.isEmpty
  | .emb _ _ => false

/-- Hex digit as accepted by `bson.ObjectId` string parsing. -/
def isHexDigit (c : Char) : Bool :=
  c.isDigit || (('a' ≤ c && c ≤ 'f') || ('A' ≤ c && c ≤ 'F'))

/-- A string accepted by the `ObjectId` constructor: 24 hex characters. -/
def isObjectIdString (s : String) : Bool :=
  s.data.length == 24 && s.data.all isHexDigit

mutual

/-- One value inside the query normalisation `Document.convert_id`
(document.py 212-235): a string is converted to an `ObjectId` when it
parses (the failure is swallowed: `except Exception: pass`), a nested
dictionary is converted recursively, anything else is left unchanged. -/
def convert_value : Value → Value
  | .str s => if isObjectIdString s then .oid s else .str s
  | .dict kvs => .dict (convert_entries kvs)
  | v => v

/-- The item loop of `Document.convert_id` over a query dictionary. -/
def convert_entries : List (String × Value) → List (String × Value)
  | [] => []
  | (k, v) :: rest => (k, convert_value v) :: convert_entries rest

end

/-- `Document.convert_id(query)`: normalise every value of the filter. -/
def convert_id (query : List (String × Value)) : List (String × Value) :=
  convert_entries query

/-- Errors raised by the field layer (`src/motormongo/fields/exceptions`),
plus the two generic errors of the base descriptor: `ValueError` for a
missing required value and `TypeError` for the type-tuple check, both in
`Field.__set__` (field.py 15-23), and the `ObjectId` constructor failure on
a malformed identity string. -/
inductive FieldErr where
  | requiredError
  | typeError
  | stringValueError
  | stringLengthError
  | integerValueError
  | integerRangeError
  | floatValueError
  | floatRangeError
  | booleanFieldError
  | dateTimeValueError
  | dateTimeFormatError
  | invalidEnumValueError
  | invalidEnumTypeError
  | geoCoordinateError
  | referenceConversionError
  | referenceTypeError
  | listValueTypeError
  | listItemTypeError
  | embeddedDocumentTypeError
  | invalidIdError
  deriving Repr, DecidableEq

def Value.is_none : Value → Bool
  | .none => true
  | _ => false

/-- The `isinstance` checks of the per-kind `type` tuples given to the base
`Field.__init__`. -/
def is_string : Value → Bool
  | .str _ => true
  | _ => false

def is_int : Value → Bool
  | .int _ => true
  | _ => false

def is_float : Value → Bool
  | .float _ => true
  | _ => false

def is_bool : Value → Bool
  | .bool _ => true
  | _ => false

/-- `DateTimeField` declares `type=(datetime, date, str)`. -/
def is_dt_like : Value → Bool
  | .dt _ => true
  | .str _ => true
  | _ => false

def is_enum_member : Value → Bool
  | .enum _ => true
  | _ => false

/-- `GeoJSONField` declares `type=(list, tuple, dict)`. -/
def is_geo_type : Value → Bool
  | .list _ => true
  | .dict _ => true
  | _ => false

def is_oid : Value → Bool
  | .oid _ => true
  | _ => false

def is_list : Value → Bool
  | .list _ => true
  | _ => false

/-- `EmbeddedDocumentField` declares `type=(dict, EmbeddedDocument)`. -/
def is_dict_or_embedded : Value → Bool
  | .dict _ => true
  | .emb _ _ => true
  | _ => false

/-- The base `Field.__set__` (field.py 15-23): a required field rejects
`None`, then the value must satisfy one of the declared types. -/
def base_set (required : Bool) (type_ok : Value → Bool) (value : Value) :
    Except FieldErr Value :=
  if required && value.is_none then .error .requiredError
  else if !(type_ok value) then .error .typeError
  else .ok value

/-- `StringField.validate` (string_field.py); regex patterns are not part of
the model. -/
def string_validate (min_length max_length : Option Nat) (value : Value) :
    Except FieldErr Value :=
  match value with
  | .str s =>
      if min_length.any (fun m => decide (s.length < m)) then .error .stringLengthError
      else if max_length.any (fun m => decide (m < s.length)) then .error .stringLengthError
      else .ok (.str s)
  | _ => .error .stringValueError

/-- `IntegerField.validate` (integer_field.py): `None` passes through, a
non-integer is rejected, bounds are inclusive. -/
def integer_validate (min_value max_value : Option Int) (value : Value) :
    Except FieldErr Value :=
  match value with
  | .none => .ok .none
  | .int n =>
      if min_value.any (fun m => decide (n < m)) then .error .integerRangeError
      else if max_value.any (fun m => decide (m < n)) then .error .integerRangeError
      else .ok (.int n)
  | _ => .error .integerValueError

/-- `BooleanField.validate` (boolean_field.py): strictly boolean. -/
def boolean_validate (value : Value) : Except FieldErr Value :=
  match value with
  | .none => .ok .none
  | .bool b => .ok (.bool b)
  | _ => .error .booleanFieldError

/-- `EnumField.validate` (enum_field.py): a string resolves to the member
with that underlying value, a member of the declared enum passes, anything
else is a type mismatch. -/
def enum_validate (members : List String) (value : Value) : Except FieldErr Value :=
  match value with
  | .str s => if members.contains s then .ok (.enum s) else .error .invalidEnumValueError
  | .enum s => if members.contains s then .ok (.enum s) else .error .invalidEnumTypeError
  | _ => .error .invalidEnumTypeError

/-- `ReferenceField.validate` (reference_field.py); the branch accepting a
document instance (extracting its identity) is outside the value model. -/
def reference_validate (value : Value) : Except FieldErr Value :=
  match value with
  | .str s => if isObjectIdString s then .ok (.oid s) else .error .referenceConversionError
  | .oid s => .ok (.oid s)
  | _ => .error .referenceTypeError

/-- `DateTimeField._handle_string_or_date_input` (datetime_field.py 37-57);
`parse` abstracts `datetime.strptime` against the configured format list
(first matching format wins) — no verified claim depends on which strings
parse.  A `date` is upcast to a midnight datetime, hence also a `dt` here. -/
def dt_handle_input (parse : String → Option Nat) (value : Value) :
    Except FieldErr Value :=
  match value with
  | .str s =>
      match parse s with
      | some t => .ok (.dt t)
      | Option.none => .error .dateTimeFormatError
  | .dt t => .ok (.dt t)
  | _ => .error .dateTimeValueError

/-- Numeric view of a coordinate, as used by the range comparisons of
`GeoJSONField.__set__` (a non-numeric coordinate makes the Python comparison
raise `TypeError`). -/
def as_rat : Value → Option Rat
  | .int n => some (n : Rat)
  | .float q => some q
  | _ => Option.none

/-- The range condition of `GeoJSONField.__set__`: latitude in [-90, 90] and
longitude in [-180, 180]. -/
def geo_coords_ok (lon lat : Rat) : Bool :=
  (decide ((-90 : Rat) ≤ lat) && decide (lat ≤ (90 : Rat))) &&
    (decide ((-180 : Rat) ≤ lon) && decide (lon ≤ (180 : Rat)))

/-- The GeoJSON mapping built from a coordinate pair by
`GeoJSONField.__set__` (the original coordinate objects are kept). -/
def geo_point_of (lonV latV : Value) : Value :=
  .dict [("type", .str "Point"), ("coordinates", .list [lonV, latV])]

/-- The `__set__` semantics of each concrete flat field descriptor
(composing the subclass `__set__` with the base `Field.__set__`), given the
current attribute value `current` (`obj.__dict__.get(self.name)`,
`Value.none` when unset), the assigned value and the current UTC time.
Note that `DateTimeField.__set__` (datetime_field.py 59-75) only branches on
`auto_now_add`; the `auto_now` flag is stored by `__init__` but never read
during assignment. -/
def flat_set (parse : String → Option Nat) (kind : FlatKind) (required : Bool)
    (current : Value) (value : Value) (now : Nat) : Except FieldErr Value :=
  match kind with
  | .stringF minL maxL =>
      match value with
      | .none => base_set required is_string .none
      | v => do
          let v2 ← string_validate minL maxL v
          base_set required is_string v2
  | .integerF minV maxV => do
      let v2 ← integer_validate minV maxV value
      base_set required is_int v2
  | .floatF minV maxV =>
      match value with
      | .none => base_set required is_float .none
      | .int n =>
          if minV.any (fun m => decide ((n : Rat) < m)) then .error .floatRangeError
          else if maxV.any (fun m => decide (m < (n : Rat))) then .error .floatRangeError
          else base_set required is_float (.float (n : Rat))
      | .float q =>
          if minV.any (fun m => decide (q < m)) then .error .floatRangeError
          else if maxV.any (fun m => decide (m < q)) then .error .floatRangeError
          else base_set required is_float (.float q)
      | _ => .error .floatValueError
  | .dateTimeF _auto_now auto_now_add =>
      if auto_now_add && falsy current then
        base_set required is_dt_like (.dt now)
      else if auto_now_add && !(falsy current) then
        base_set required is_dt_like current
      else
        match value with
        | .none => base_set required is_dt_like .none
        | v => do
            let v2 ← dt_handle_input parse v
            base_set required is_dt_like v2
  | .booleanF => do
      let v2 ← boolean_validate value
      base_set required is_bool v2
  | .enumF members =>
      match value with
      | .none => base_set required is_enum_member .none
      | v => do
          let v2 ← enum_validate members v
          base_set required is_enum_member v2
  | .geoF _ =>
      match value with
      | .none => base_set required is_geo_type .none
      | .list items =>
          match items with
          | [lonV, latV] =>
              match as_rat lonV, as_rat latV with
              | some lon, some lat =>
                  if !(geo_coords_ok lon lat) then .error .geoCoordinateError
                  else base_set required is_geo_type (geo_point_of lonV latV)
              | _, _ => .error .typeError
          | _ => .error .geoCoordinateError
      | .dict kvs =>
          match kvs.lookup "type" with
          | some (.str "Point") =>
              match (kvs.lookup "coordinates").getD (.list []) with
              | .list [lonV, latV] =>
                  match as_rat lonV, as_rat latV with
                  | some lon, some lat =>
                      if !(geo_coords_ok lon lat) then .error .geoCoordinateError
                      else base_set required is_geo_type (.dict kvs)
                  | _, _ => .error .typeError
              | .list _ => .error .geoCoordinateError
              | _ => .error .typeError
          | _ => .error .geoCoordinateError
      | _ => .error .geoCoordinateError
  | .referenceF =>
      match value with
      | .none => base_set required is_oid .none
      | v => do
          let v2 ← reference_validate v
          base_set required is_oid v2

/-- `GeoJSONField.__get__` (geojson_field.py 41-47): the raw stored value
unless `return_as_list` is set, in which case a stored Point mapping yields
its coordinate pair and anything else yields `None`. -/
def geo_get (return_as_list : Bool) (stored : Value) : Value :=
  if !return_as_list then stored
  else
    match stored with
    | .dict kvs =>
        match kvs.lookup "type" with
        | some (.str "Point") => (kvs.lookup "coordinates").getD .none
        | _ => .none
    | _ => .none

/-- The logical value attribute access yields for a stored flat field value:
`EnumField.__get__` returns the member's underlying value, geo fields follow
`geo_get`, everything else is returned as stored.  (`ReferenceField.__get__`
returns a lazy fetch coroutine in the source; its observable identity is the
stored `ObjectId`.) -/
def flat_get (kind : FlatKind) (stored : Value) : Value :=
  match kind with
  | .enumF _ =>
      match stored with
      | .enum s => .str s
      | _ => .none
  | .geoF ral => geo_get ral stored
  | _ => stored

/-- Which concrete fields define a `validate` method — checked by
`ListField.__set__` via `hasattr(self.field, "validate")`.  Float, datetime
and geo fields keep their checks inline in `__set__` and have none, so list
items of those kinds pass through unvalidated. -/
def flat_has_validate : FlatKind → Bool
  | .stringF _ _ => true
  | .integerF _ _ => true
  | .floatF _ _ => false
  | .booleanF => true
  | .dateTimeF _ _ => false
  | .enumF _ => true
  | .geoF _ => false
  | .referenceF => true

/-- Item validation inside `ListField.__set__`: the item field's `validate`
when it exists, otherwise the item is used directly. -/
def flat_item_validate (k : FlatKind) (v : Value) : Except FieldErr Value :=
  match k with
  | .stringF a b => string_validate a b v
  | .integerF a b => integer_validate a b v
  | .booleanF => boolean_validate v
  | .enumF ms => enum_validate ms v
  | .referenceF => reference_validate v
  | .floatF _ _ => .ok v
  | .dateTimeF _ _ => .ok v
  | .geoF _ => .ok v

/-- The item field of a `ListField`. -/
inductive ItemKind where
  | flatI (k : FlatKind)
  | embI (schema : List (String × FlatKind))
  deriving Repr, BEq

/-- A declared field of a `Document` subclass: a concrete flat field, a
`ListField` (with its optional item field), or an `EmbeddedDocumentField`
carrying the embedded class's flat field map. -/
inductive FieldKind where
  | flat (k : FlatKind)
  | listF (item : Option ItemKind)
  | embF (schema : List (String × FlatKind))
  deriving Repr, BEq

/-- `EmbeddedDocument.__init__` over its flat field map (the model keeps
embedded schemas flat, without per-subfield defaults): each keyword resolving
to a non-`None` value is pushed through the field's `__set__`; a `None`
resolution skips the assignment. -/
def emb_init (parse : String → Option Nat) (schema : List (String × FlatKind))
    (kwargs : List (String × Value)) (now : Nat) :
    Except FieldErr (List (String × Value)) :=
  match schema with
  | [] => .ok []
  | (name, k) :: rest =>
      let value := (kwargs.lookup name).getD .none
      if value.is_none then emb_init parse rest kwargs now
      else do
        let v2 ← flat_set parse k false .none value now
        let tail ← emb_init parse rest kwargs now
        .ok ((name, v2) :: tail)

/-- `EmbeddedDocumentField.validate` (embedded_document_field.py): a mapping
instantiates the declared embedded type (an instantiation failure is
re-raised as `EmbeddedDocumentTypeError`), an instance of the declared type
passes, anything else is rejected. -/
def embedded_validate (parse : String → Option Nat)
    (schema : List (String × FlatKind)) (value : Value) (now : Nat) :
    Except FieldErr Value :=
  match value with
  | .dict kvs =>
      match emb_init parse schema kvs now with
      | .ok flds => .ok (.emb schema flds)
      | .error _ => .error .embeddedDocumentTypeError
  | .emb schema2 flds =>
      if schema2 == schema then .ok (.emb schema2 flds)
      else .error .embeddedDocumentTypeError
  | _ => .error .embeddedDocumentTypeError

/-- One item through `ListField.__set__`'s per-item validation. -/
def item_validate (parse : String → Option Nat) (item : ItemKind) (v : Value)
    (now : Nat) : Except FieldErr Value :=
  match item with
  | .flatI k => flat_item_validate k v
  | .embI schema => embedded_validate parse schema v now

/-- The item loop of `ListField.__set__`: any item failure is re-raised as
`ListItemTypeError`. -/
def list_items_validate (parse : String → Option Nat) (item : ItemKind)
    (items : List Value) (now : Nat) : Except FieldErr (List Value) :=
  match items with
  | [] => .ok []
  | v :: rest =>
      match item_validate parse item v now with
      | .ok v2 =>
          match list_items_validate parse item rest now with
          | .ok tail => .ok (v2 :: tail)
          | .error e => .error e
      | .error _ => .error .listItemTypeError

/-- `ListField.__set__` (list_field.py) on a non-`None` value. -/
def list_set (parse : String → Option Nat) (item : Option ItemKind)
    (required : Bool) (value : Value) (now : Nat) : Except FieldErr Value :=
  match value with
  | .list items =>
      match item with
      | some it => do
          let processed ← list_items_validate parse it items now
          base_set required is_list (.list processed)
      | Option.none => base_set required is_list (.list items)
  | _ => .error .listValueTypeError

/-- Dispatch of `__set__` over the declared field kinds.  A `None`
assignment to a `ListField` is a no-op in the source (its `__set__` has no
else branch), modelled by keeping the current value. -/
def kind_set (parse : String → Option Nat) (kind : FieldKind) (required : Bool)
    (current value : Value) (now : Nat) : Except FieldErr Value :=
  match kind with
  | .flat k => flat_set parse k required current value now
  | .listF item =>
      match value with
      | .none => .ok current
      | v => list_set parse item required v now
  | .embF schema =>
      match value with
      | .none => base_set required is_dict_or_embedded .none
      | v => do
          let v2 ← embedded_validate parse schema v now
          base_set required is_dict_or_embedded v2

def lookup_flat (schema : List (String × FlatKind)) (k : String) :
    Option FieldKind :=
  (schema.lookup k).map FieldKind.flat

mutual

/-- `Document._serialize` (document.py 1161-1189): an `ObjectId` renders as a
string when `id_as_string`, a geo-field value honours `return_as_list`, an
enum member renders as its underlying value, an embedded document as its own
`to_dict`, a list element-wise; everything else passes through. -/
def serialize_value (id_as_string : Bool) (field_type : Option FieldKind) :
    Value → Value
  | .oid s => if id_as_string then .str s else .oid s
  | v =>
      match field_type with
      | some (.flat (.geoF ral)) =>
          if ral then
            match v with
            | .dict kvs => (kvs.lookup "coordinates").getD .none
            | v2 => v2
          else v
      | _ =>
          match v with
          | .enum s => .str s
          | .emb schema flds => .dict (serialize_fields id_as_string schema flds)
          | .list items => .list (serialize_items items)
          | v2 => v2

/-- List items are serialized by the bare recursive call
`self._serialize(item)`: no field type and `id_as_string` back at its
`False` default. -/
def serialize_items : List Value → List Value
  | [] => []
  | v :: rest => serialize_value false Option.none v :: serialize_items rest

/-- An embedded value serializes via its own `to_dict(id_as_string=...)`,
walking its attribute dictionary with its class's descriptors. -/
def serialize_fields (id_as_string : Bool) (schema : List (String × FlatKind)) :
    List (String × Value) → List (String × Value)
  | [] => []
  | (k, v) :: rest =>
      (k, serialize_value id_as_string (lookup_flat schema k) v) ::
        serialize_fields id_as_string schema rest

end

/-- Effective declared-field map entry of a `Document` subclass: kind,
`required`, `unique` and the `default` option (the inheritance walk of
`__init__` resolved into one map, overrides already applied). -/
structure FieldSpec where
  kind : FieldKind
  required : Bool
  unique : Bool
  default : Option Value
  deriving Repr, BEq

abbrev Schema := List (String × FieldSpec)

/-- The instance state: the optional `_id` attribute and the remaining
attribute dictionary in assignment order. -/
structure DocState where
  id_val : Option Value
  fields : List (String × Value)
  deriving Repr, BEq

/-- `ObjectId(None)` generates a fresh identity; the model stands in a fixed
placeholder for the driver-generated value. -/
def model_generated_oid : String := "507f1f77bcf86cd799439011"

/-- `ObjectId(x)` as applied to the `_id` keyword of `Document.__init__`:
an `ObjectId` passes, a parsable string converts, `None` generates fresh,
anything else is an invalid identity. -/
def object_id_of : Value → Except FieldErr Value
  | .oid s => .ok (.oid s)
  | .str s => if isObjectIdString s then .ok (.oid s) else .error .invalidIdError
  | .none => .ok (.oid model_generated_oid)
  | _ => .error .invalidIdError

/-- The field loop of `Document.__init__` (document.py 110-116): each
declared field resolves from the keyword arguments or the field's default,
and `setattr` — hence the field's `__set__` validation — runs only when the
resolved value is not `None`. -/
def init_fields (parse : String → Option Nat) (schema : Schema)
    (kwargs : List (String × Value)) (now : Nat) :
    Except FieldErr (List (String × Value)) :=
  match schema with
  | [] => .ok []
  | (name, spec) :: rest =>
      let value := (kwargs.lookup name).getD (spec.default.getD .none)
      if value.is_none then init_fields parse rest kwargs now
      else do
        let v2 ← kind_set parse spec.kind spec.required .none value now
        let tail ← init_fields parse rest kwargs now
        .ok ((name, v2) :: tail)

/-- `Document.__init__` (document.py 88-125): the `_id`/`id` keyword is
parsed into an `ObjectId` when present, then every declared field is
resolved and assigned. -/
def init_doc (parse : String → Option Nat) (schema : Schema)
    (kwargs : List (String × Value)) (now : Nat) : Except FieldErr DocState := do
  let id_val ←
    if (kwargs.lookup "_id").isSome || (kwargs.lookup "id").isSome then do
      let v ← object_id_of ((kwargs.lookup "_id").getD .none)
      pure (some v)
    else pure Option.none
  let flds ← init_fields parse schema kwargs now
  pure ⟨id_val, flds⟩

def lookup_kind (schema : Schema) (k : String) : Option FieldKind :=
  (schema.lookup k).map FieldSpec.kind

/-- The attribute walk of `Document.to_dict` over the non-internal instance
attributes, serializing each with the declaring class's descriptor. -/
def to_dict_fields (id_as_string : Bool) (schema : Schema) :
    List (String × Value) → List (String × Value)
  | [] => []
  | (k, v) :: rest =>
      (k, serialize_value id_as_string (lookup_kind schema k) v) ::
        to_dict_fields id_as_string schema rest

/-- `Document.to_dict` (document.py 1191-1211): the declared attributes in
assignment order, preceded by `_id` when set (in the source `_id` is first in
`__dict__` and additionally re-serialized at the end). -/
def to_dict (id_as_string : Bool) (schema : Schema) (st : DocState) :
    List (String × Value) :=
  let base := to_dict_fields id_as_string schema st.fields
  match st.id_val with
  | some idv => ("_id", serialize_value id_as_string Option.none idv) :: base
  | Option.none => base

/-- Per-class timestamp configuration: whether a `Meta` inner class exists
and the effective values of `getattr(cls.Meta, flag, True)`. -/
structure MetaFlags where
  has_meta : Bool
  created_at_timestamp : Bool
  updated_at_timestamp : Bool
  deriving Repr, BEq

/-- Python dictionary assignment `kvs[k] = v`: replace in place, else
append. -/
def set_key (kvs : List (String × Value)) (k : String) (v : Value) :
    List (String × Value) :=
  if (kvs.lookup k).isSome then
    kvs.map (fun kv => if kv.fst == k then (k, v) else kv)
  else kvs ++ [(k, v)]

/-- `add_timestamps_if_required` (utils/formatter.py 5-13): with a `Meta`
class, `created_at` is added only when absent and the operation is not an
update, and `updated_at` is always set to the current time. -/
def add_timestamps_if_required (meta : MetaFlags) (operation : String)
    (kwargs : List (String × Value)) (now : Nat) : List (String × Value) :=
  if meta.has_meta then
    let k1 :=
      if meta.created_at_timestamp && (kwargs.lookup "created_at").isNone
          && operation != "update"
      then kwargs ++ [("created_at", .dt now)] else kwargs
    if meta.updated_at_timestamp then set_key k1 "updated_at" (.dt now) else k1
  else kwargs

/-- The `$set` payload construction of `Document.update_one`
(document.py 550-581): stamp timestamps, normalise the query, pop every
query key from the update fields, validate by constructing an instance from
the remaining fields, and use the serialized instance as the payload. -/
def update_one_payload (parse : String → Option Nat) (schema : Schema)
    (meta : MetaFlags) (query update_fields : List (String × Value))
    (now : Nat) : Except FieldErr (List (String × Value)) := do
  let uf := add_timestamps_if_required meta "update" update_fields now
  let q := convert_id query
  let uf2 := uf.filter (fun kv => (q.lookup kv.fst).isNone)
  let inst ← init_doc parse schema uf2 now
  pure (to_dict false schema inst)

/-- `Document.save` (document.py 974-1012): the write payload is
`self.to_dict(id_as_string=False)`; an instance without `_id` is inserted,
receives `new_id` and gets the `created_at`/`updated_at` entries of the
written payload back-filled onto it per the `Meta` flags; an instance with
`_id` is replaced by identity and left untouched.  The current time is not
an input: `save` itself never stamps a timestamp. -/
def save (schema : Schema) (meta : MetaFlags) (st : DocState) (new_id : Value) :
    DocState × List (String × Value) :=
  let document := to_dict false schema st
  match st.id_val with
  | Option.none =>
      let fs0 :=
        if meta.has_meta && meta.created_at_timestamp
        then set_key st.fields "created_at" ((document.lookup "created_at").getD .none)
        else st.fields
      let fs1 :=
        if meta.has_meta && meta.updated_at_timestamp
        then set_key fs0 "updated_at" ((document.lookup "updated_at").getD .none)
        else fs0
      (⟨some new_id, fs1⟩, document)
  | some _ => (st, document)

mutual

/-- Structural equality of modelled values (the equality semantics the
backing store applies when matching an equality filter). -/
def value_beq : Value → Value → Bool
  | .none, .none => true
  | .str a, .str b => a == b
  | .int a, .int b => a == b
  | .float a, .float b => a == b
  | .bool a, .bool b => a == b
  | .dt a, .dt b => a == b
  | .enum a, .enum b => a == b
  | .oid a, .oid b => a == b
  | .dict a, .dict b => entries_beq a b
  | .list a, .list b => values_beq a b
  | .emb s1 f1, .emb s2 f2 => s1 == s2 && entries_beq f1 f2
  | _, _ => false

def entries_beq : List (String × Value) → List (String × Value) → Bool
  | [], [] => true
  | (k1, v1) :: r1, (k2, v2) :: r2 => k1 == k2 && value_beq v1 v2 && entries_beq r1 r2
  | _, _ => false

def values_beq : List Value → List Value → Bool
  | [], [] => true
  | v1 :: r1, v2 :: r2 => value_beq v1 v2 && values_beq r1 r2
  | _, _ => false

end

/-- Equality-filter matching of the black-box collection interface (spec §6):
a stored document matches when every filter entry equals the stored value at
that key. -/
def doc_matches (filter doc : List (String × Value)) : Bool :=
  filter.all (fun kv =>
    match doc.lookup kv.fst with
    | some w => value_beq w kv.snd
    | Option.none => false)

/-- Collaborator `collection.find_one`: the first matching document, if any. -/
def collection_find_one (db : List (List (String × Value)))
    (filter : List (String × Value)) : Option (List (String × Value)) :=
  db.find? (fun d => doc_matches filter d)

/-- Collaborator `collection.find_one_and_delete`: the first matching
document together with the remaining collection. -/
def collection_find_one_and_delete (db : List (List (String × Value)))
    (filter : List (String × Value)) :
    Option ((List (String × Value)) × List (List (String × Value))) :=
  match db with
  | [] => Option.none
  | d :: rest =>
      if doc_matches filter d then some (d, rest)
      else (collection_find_one_and_delete rest filter).map (fun r => (r.fst, d :: r.snd))

/-- Document-operation errors (`abstracts/exceptions/document.py`); the
update/delete kinds record the exception whose message they wrap when
re-raising. -/
inductive DocErr where
  | documentNotFoundError
  | documentInsertError
  | documentUpdateError (wrapped : Option DocErr)
  | documentDeleteError (wrapped : Option DocErr)
  deriving Repr, BEq

/-- `Document.find_one` (document.py 370-425): merge the filter sources,
apply `convert_id`, read; a hit hydrates via `from_dict`, a miss returns
`None`; an exception while reading or hydrating is wrapped in
`DocumentNotFoundError`. -/
def find_one_model (parse : String → Option Nat) (schema : Schema)
    (db : List (List (String × Value))) (query : List (String × Value))
    (now : Nat) : Except DocErr (Option DocState) :=
  let filter := convert_id query
  match collection_find_one db filter with
  | some doc =>
      match init_doc parse schema doc now with
      | .ok st => .ok (some st)
      | .error _ => .error .documentNotFoundError
  | Option.none => .ok Option.none

/-- `Document.find_one_and_delete` (document.py 926-972): the merged query is
passed straight to the driver (no `convert_id`); a hit hydrates and returns
the removed document; a miss raises `DocumentNotFoundError`, which the
operation's exception handler re-raises wrapped in `DocumentDeleteError`. -/
def find_one_and_delete_model (parse : String → Option Nat) (schema : Schema)
    (db : List (List (String × Value))) (query : List (String × Value))
    (now : Nat) :
    Except DocErr (DocState × List (List (String × Value))) :=
  match collection_find_one_and_delete db query with
  | some r =>
      match init_doc parse schema r.fst now with
      | .ok st => .ok (st, r.snd)
      | .error _ => .error (.documentDeleteError Option.none)
  | Option.none => .error (.documentDeleteError (some .documentNotFoundError))

/-- The `fields_to_update` comprehension of
`Document.find_one_and_update_empty_fields` (document.py 896-900): keep the
update entries whose key is absent or falsy in the existing record and
absent from the query. -/
def empty_fields_subset (existing update_fields query : List (String × Value)) :
    List (String × Value) :=
  update_fields.filter (fun kv =>
    ((existing.lookup kv.fst).isNone || falsy ((existing.lookup kv.fst).getD .none))
      && (query.lookup kv.fst).isNone)

/-- Observable outcome of `find_one_and_update_empty_fields`. -/
inductive EmptyFieldsOutcome where
  | raised (e : DocErr)
  | not_updated (existing : List (String × Value))
  | updated_with (subset : List (String × Value))
  deriving Repr, BEq

/-- `Document.find_one_and_update_empty_fields` (document.py 859-924): read
the existing record; a non-empty kept subset is applied through `update_one`
and reported `updated=True`; an empty one returns the hydrated existing
record with `updated=False`; no match raises `DocumentNotFoundError`, which
the handler re-raises wrapped in `DocumentUpdateError`. -/
def find_one_and_update_empty_fields_model (db : List (List (String × Value)))
    (query update_fields : List (String × Value)) : EmptyFieldsOutcome :=
  match collection_find_one db query with
  | some existing_doc =>
      let fields_to_update := empty_fields_subset existing_doc update_fields query
      if fields_to_update.isEmpty then .not_updated existing_doc
      else .updated_with fields_to_update
  | Option.none => .raised (.documentUpdateError (some .documentNotFoundError))

/-- A declared compound-index entry of a `Meta.indexes` list: the normalized
`(field, direction)` pairs and the optional explicit `name` option (the other
options — TTL, geo type — do not affect naming or reconciliation). -/
structure IndexDecl where
  fields : List (String × Int)
  name_opt : Option String
  deriving Repr, BEq

/-- The index name used by `create_indexes_for_document`
(database.py 104-106): the explicit `name` option, else the underscore-join
of the field names. -/
def derived_name (d : IndexDecl) : String :=
  d.name_opt.getD (String.intercalate "_" (d.fields.map Prod.fst))

/-- Names of the automatically created unique single-field indexes
(database.py 67-70): `<field>_unique` for every field with `unique=True`. -/
def unique_index_names (schema : Schema) : List String :=
  (schema.filter (fun kv => kv.snd.unique)).map (fun kv => kv.fst ++ "_unique")

/-- The `defined_indexes` set accumulated by one run: unique-field indexes
plus the declared `Meta.indexes` entries. -/
def declared_index_names (schema : Schema) (decls : List IndexDecl) :
    List String :=
  unique_index_names schema ++ decls.map derived_name

/-- The `create_index` calls one run of `create_indexes_for_document`
issues: every declared index whose name is not among the existing names
(each creation assumed to succeed). -/
def run_creates (schema : Schema) (decls : List IndexDecl)
    (existing : List String) : List String :=
  (declared_index_names schema decls).filter (fun n => !(existing.contains n))

/-- `remove_outdated_indexes` (database.py 36-53): drop every existing index
that is not declared, sparing the default `_id_` index. -/
def run_drops (schema : Schema) (decls : List IndexDecl)
    (existing : List String) : List String :=
  (existing.filter (fun n => !((declared_index_names schema decls).contains n))).filter
    (fun n => n != "_id_")

/-- The index names present after one run (the collaborator adds every
created index and removes every dropped one). -/
def run_post_state (schema : Schema) (decls : List IndexDecl)
    (existing : List String) : List String :=
  (existing.filter (fun n => !((run_drops schema decls existing).contains n)))
    ++ run_creates schema decls existing

/-- Canonical stored representations a flat field's validation can produce
(what an instance attribute holds after a successful `__set__`). -/
def valid_stored_flat : FlatKind → Value → Bool
  | .stringF minL maxL, .str s =>
      !(minL.any (fun m => decide (s.length < m)))
        && !(maxL.any (fun m => decide (m < s.length)))
  | .integerF minV maxV, .int n =>
      !(minV.any (fun m => decide (n < m)))
        && !(maxV.any (fun m => decide (m < n)))
  | .floatF minV maxV, .float q =>
      !(minV.any (fun m => decide (q < m)))
        && !(maxV.any (fun m => decide (m < q)))
  | .booleanF, .bool _ => true
  | .dateTimeF _ _, .dt _ => true
  | .enumF ms, .enum s => ms.contains s
  | .geoF _, .dict kvs =>
      (match kvs.lookup "type" with
        | some (.str "Point") => true
        | _ => false)
      && (match kvs.lookup "coordinates" with
          | some (.list [a, b]) =>
              (match as_rat a, as_rat b with
                | some lon, some lat => geo_coords_ok lon lat
                | _, _ => false)
          | _ => false)
  | .referenceF, .oid s => isObjectIdString s
  | _, _ => false

mutual

/-- Values on which `_serialize` with no field type and `id_as_string=False`
is the identity: the raw items an item-field-less `ListField` may hold and
still round-trip. -/
def serialize_fixed : Value → Bool
  | .str _ => true
  | .int _ => true
  | .float _ => true
  | .bool _ => true
  | .dt _ => true
  | .oid _ => true
  | .dict _ => true
  | .none => true
  | .enum _ => false
  | .emb _ _ => false
  | .list items => serialize_fixed_list items

def serialize_fixed_list : List Value → Bool
  | [] => true
  | v :: rest => serialize_fixed v && serialize_fixed_list rest

end

/-- Validity of an embedded instance's attribute dictionary against its
class's flat field map (declared attribute names are unique in a Python
class body). -/
def valid_stored_emb (schema : List (String × FlatKind))
    (flds : List (String × Value)) : Bool :=
  decide (schema.map Prod.fst).Nodup
    && flds.all (fun kv =>
        match schema.lookup kv.fst with
        | some k => valid_stored_flat k kv.snd
        | Option.none => false)

/-- Validity of a stored list item. -/
def valid_stored_item : ItemKind → Value → Bool
  | .flatI k, v => valid_stored_flat k v
  | .embI schema, v =>
      match v with
      | .emb schema2 flds => schema2 == schema && valid_stored_emb schema flds
      | _ => false

/-- Validity of a stored declared-field value. -/
def valid_stored_kind : FieldKind → Value → Bool
  | .flat k, v => valid_stored_flat k v
  | .listF (some it), v =>
      match v with
      | .list items => items.all (valid_stored_item it)
      | _ => false
  | .listF Option.none, v =>
      match v with
      | .list items => items.all serialize_fixed
      | _ => false
  | .embF schema, v =>
      match v with
      | .emb schema2 flds => schema2 == schema && valid_stored_emb schema flds
      | _ => false

/-- A `DateTimeField` with `auto_now_add` re-stamps the current time when a
fresh instance is populated, so such fields cannot round-trip; every other
flat kind can. -/
def flat_no_auto_add : FlatKind → Bool
  | .dateTimeF _ add => !add
  | _ => true

def item_no_auto_add : ItemKind → Bool
  | .flatI _ => true
  | .embI schema => schema.all (fun kv => flat_no_auto_add kv.snd)

def kind_no_auto_add : FieldKind → Bool
  | .flat k => flat_no_auto_add k
  | .listF (some it) => item_no_auto_add it
  | .listF Option.none => true
  | .embF schema => schema.all (fun kv => flat_no_auto_add kv.snd)

/-- The stored value re-validation produces from the serialized form of a
valid stored value: the identity except for `return_as_list` geo fields,
whose serialized coordinate pair re-validates to the canonical Point
mapping (dropping any extra keys of the originally supplied mapping). -/
def flat_restore (k : FlatKind) (v : Value) : Value :=
  match k with
  | .geoF true =>
      (match v with
        | .dict kvs =>
            (match kvs.lookup "coordinates" with
              | some (.list [a, b]) => geo_point_of a b
              | _ => v)
        | _ => v)
  | _ => v

/-- Re-validated embedded attribute dictionary after a serialization
round-trip. -/
def emb_restore (schema : List (String × FlatKind))
    (flds : List (String × Value)) : List (String × Value) :=
  schema.filterMap (fun nk =>
    (flds.lookup nk.fst).map (fun v => (nk.fst, flat_restore nk.snd v)))

def item_restore : ItemKind → Value → Value
  | .flatI _, v => v
  | .embI schema, v =>
      match v with
      | .emb _ flds => .emb schema (emb_restore schema flds)
      | v2 => v2

def kind_restore : FieldKind → Value → Value
  | .flat k, v => flat_restore k v
  | .listF (some it), v =>
      match v with
      | .list items => .list (items.map (item_restore it))
      | v2 => v2
  | .listF Option.none, v => v
  | .embF schema, v =>
      match v with
      | .emb _ flds => .emb schema (emb_restore schema flds)
      | v2 => v2

/-- The logical field view of an embedded instance: every declared sub-field
as attribute access returns it. -/
def emb_logical (schema : List (String × FlatKind))
    (flds : List (String × Value)) : List (String × Value) :=
  schema.map (fun kv => (kv.fst, flat_get kv.snd ((flds.lookup kv.fst).getD .none)))

def item_logical : ItemKind → Value → Value
  | .flatI _, v => v
  | .embI schema, v =>
      match v with
      | .emb _ flds => .dict (emb_logical schema flds)
      | v2 => v2

/-- The logical value attribute access yields for a stored declared-field
value (`ListField.__get__` returns the raw processed list; embedded
instances are observed through their field views). -/
def kind_logical : FieldKind → Value → Value
  | .flat k, v => flat_get k v
  | .listF (some it), v =>
      match v with
      | .list items => .list (items.map (item_logical it))
      | v2 => v2
  | .listF Option.none, v => v
  | .embF schema, v =>
      match v with
      | .emb _ flds => .dict (emb_logical schema flds)
      | v2 => v2

/-- Validity of a whole instance state against its class: unique declared
names, no declared field shadowing the identity keywords, every stored
attribute a valid stored value of its declared field, and a well-formed
identity when set. -/
def valid_doc (schema : Schema) (st : DocState) : Bool :=
  decide (schema.map Prod.fst).Nodup
    && !((schema.map Prod.fst).contains "_id")
    && !((schema.map Prod.fst).contains "id")
    && st.fields.all (fun kv =>
        match schema.lookup kv.fst with
        | some spec => valid_stored_kind spec.kind kv.snd
        | Option.none => false)
    && (match st.id_val with
        | some (.oid s) => isObjectIdString s
        | Option.none => true
        | some _ => false)

/-- Every declared field default (when present) passes its field's `__set__`:
re-construction resolves missing keywords to defaults and aborts on a default
that fails validation. -/
def defaults_ok (parse : String → Option Nat) (schema : Schema) (now : Nat) :
    Bool :=
  schema.all (fun ns =>
    match ns.snd.default with
    | some dv =>
        if dv.is_none then true
        else
          match kind_set parse ns.snd.kind ns.snd.required .none dv now with
          | .ok _ => true
          | .error _ => false
    | Option.none => true)

end Motormongo

namespace Motormongo

theorem lookup_cons_entry (k k2 : String) (v : β) (l : List (String × β)) :
    ((k2, v) :: l).lookup k = if k == k2 then some v else l.lookup k := by
  by_cases h : k == k2 <;> simp [List.lookup, h]

theorem lookup_to_dict_fields (ias : Bool) (schema : Schema) (n : String)
    (l : List (String × Value)) :
    (to_dict_fields ias schema l).lookup n
      = (l.lookup n).map (serialize_value ias (lookup_kind schema n)) := by
  induction l with
  | nil => rfl
  | cons kv rest ih =>
      obtain ⟨k, v⟩ := kv
      by_cases h : n == k
      · have hk : n = k := by simpa using h
        subst hk
        simp [to_dict_fields, lookup_cons_entry]
      · simp [to_dict_fields, lookup_cons_entry, h, ih]

theorem lookup_serialize_fields (ias : Bool)
    (schema : List (String × FlatKind)) (n : String)
    (l : List (String × Value)) :
    (serialize_fields ias schema l).lookup n
      = (l.lookup n).map (serialize_value ias (lookup_flat schema n)) := by
  induction l with
  | nil => rfl
  | cons kv rest ih =>
      obtain ⟨k, v⟩ := kv
      by_cases h : n == k
      · have hk : n = k := by simpa using h
        subst hk
        simp [serialize_fields, lookup_cons_entry]
      · simp [serialize_fields, lookup_cons_entry, h, ih]

theorem lookup_convert_entries (n : String) (q : List (String × Value)) :
    (convert_entries q).lookup n = (q.lookup n).map convert_value := by
  induction q with
  | nil => rfl
  | cons kv rest ih =>
      obtain ⟨k, v⟩ := kv
      by_cases h : n == k
      · have hk : n = k := by simpa using h
        subst hk
        cases v <;> simp [convert_entries, convert_value, lookup_cons_entry]
      · cases v <;> simp [convert_entries, convert_value, lookup_cons_entry, h, ih]

theorem lookup_filter_key (p : String → Bool) (n : String)
    (l : List (String × Value)) :
    (l.filter (fun kv => p kv.fst)).lookup n
      = if p n then l.lookup n else Option.none := by
  induction l with
  | nil => simp
  | cons kv rest ih =>
      obtain ⟨k, v⟩ := kv
      by_cases h : n == k
      · have hk : n = k := by simpa using h
        subst hk
        by_cases hp : p n <;> simp [List.filter_cons, hp, lookup_cons_entry, ih]
      · by_cases hp : p k <;> simp [List.filter_cons, hp, lookup_cons_entry, h, ih]

theorem lookup_eq_none_of_not_mem_keys (n : String) (l : List (String × β))
    (h : n ∉ l.map Prod.fst) : l.lookup n = Option.none := by
  induction l with
  | nil => rfl
  | cons kv rest ih =>
      obtain ⟨k, v⟩ := kv
      simp only [List.map_cons, List.mem_cons] at h
      push_neg at h
      have hk : (n == k) = false := by
        simpa using h.1
      simp [lookup_cons_entry, hk, ih h.2]

theorem mem_of_lookup_eq_some {n : String} {v : β} {l : List (String × β)}
    (h : l.lookup n = some v) : (n, v) ∈ l := by
  induction l with
  | nil => simp [List.lookup] at h
  | cons kv rest ih =>
      obtain ⟨k, w⟩ := kv
      rw [lookup_cons_entry] at h
      by_cases hk : n == k
      · rw [if_pos hk] at h
        have : n = k := by simpa using hk
        subst this
        cases h
        exact List.mem_cons_self _ _
      · rw [if_neg hk] at h
        exact List.mem_cons_of_mem _ (ih h)

theorem base_set_ok (required : Bool) (tok : Value → Bool) (v : Value)
    (h1 : v.is_none = false) (h2 : tok v = true) :
    base_set required tok v = .ok v := by
  simp [base_set, h1, h2]

theorem geo_coords_ok_iff (lon lat : Rat) :
    geo_coords_ok lon lat = true
      ↔ (((-90 : Rat) ≤ lat ∧ lat ≤ 90) ∧ ((-180 : Rat) ≤ lon ∧ lon ≤ 180)) := by
  simp [geo_coords_ok, and_assoc]

/-- C1: the spec and the repository's own test
(`test_insert_w_out_required_field_fails`) require that constructing a
document which omits a `required=True` field without a default raises a
validation error.  The field loop of `Document.__init__` only calls
`setattr` when the resolved value is not `None` (document.py 115-116), so
the required check of `Field.__set__` (field.py 16-17) never fires:
construction succeeds with the field simply absent.  The second conjunct
shows that providing a default does populate the field and succeed, as the
claim states. -/
theorem required_field_omitted_does_not_raise :
    init_doc (fun _ => Option.none)
        [("name", ⟨.flat (.stringF Option.none Option.none), true, false, Option.none⟩),
         ("age", ⟨.flat (.integerF Option.none Option.none), false, false, Option.none⟩)]
        [("age", .int 12)] 0
      = .ok ⟨Option.none, [("age", .int 12)]⟩
    ∧ init_doc (fun _ => Option.none)
        [("name", ⟨.flat (.stringF Option.none Option.none), true, false, some (.str "John Doe")⟩),
         ("age", ⟨.flat (.integerF Option.none Option.none), false, false, Option.none⟩)]
        [("age", .int 12)] 0
      = .ok ⟨Option.none, [("name", .str "John Doe"), ("age", .int 12)]⟩ :=
  ⟨rfl, rfl⟩

/-- C3 counterexample: assigning the concrete datetime `dt 3` to a
`DateTimeField(auto_now=True)` at current time `9` stores `dt 3`, not the
current time, refuting "every assignment replaces the assigned value with
the current UTC time". -/
theorem auto_now_assignment_keeps_value :
    flat_set (fun _ => Option.none) (.dateTimeF true false) false .none (.dt 3) 9
        = .ok (.dt 3)
      ∧ Value.dt 3 ≠ Value.dt 9 := by
  refine ⟨rfl, ?_⟩
  simp

/-- C3 amended: `DateTimeField.__set__` has no `auto_now` branch, so the
`auto_now` flag has no effect on assignment; with `auto_now_add=True` an
assignment stores the current UTC time exactly when the field is currently
empty, and otherwise keeps (re-stores) the previously stored value
unchanged. -/
theorem datetime_set_semantics :
    ∀ (parse : String → Option Nat) (a add req : Bool) (current value : Value)
      (now : Nat),
      flat_set parse (.dateTimeF a add) req current value now
          = flat_set parse (.dateTimeF false add) req current value now
      ∧ (add = true → falsy current = true →
          flat_set parse (.dateTimeF a add) req current value now = .ok (.dt now))
      ∧ (add = true → falsy current = false →
          flat_set parse (.dateTimeF a add) req current value now
            = base_set req is_dt_like current) := by
  intro parse a add req current value now
  refine ⟨rfl, ?_, ?_⟩
  · intro hadd hcur
    subst hadd
    simp [flat_set, hcur, base_set, is_dt_like, Value.is_none, Bool.and_false]
  · intro hadd hcur
    subst hadd
    simp [flat_set, hcur]

/-- C3 amended, witness: a non-empty `auto_now_add` field keeps its stored
value `dt 4` on a later assignment. -/
theorem datetime_set_semantics_witness :
    ((true : Bool) = true ∧ falsy (Value.dt 4) = false)
      ∧ flat_set (fun _ => Option.none) (.dateTimeF true true) false (.dt 4) (.dt 3) 9
          = base_set false is_dt_like (.dt 4) :=
  ⟨⟨rfl, rfl⟩,
    (datetime_set_semantics (fun _ => Option.none) true true false (.dt 4) (.dt 3) 9).2.2
      rfl rfl⟩

/-- C5: the spec and the repository's tests (`test_datetime_fields_work`,
`test_update_at_field_w_update_one`) require `save()` on an existing
instance to refresh `updated_at`, each successive save storing a strictly
greater value.  `Document.save` (document.py 974-1012) never calls
`add_timestamps_if_required`: its write payload is exactly
`self.to_dict(id_as_string=False)` and on the replace path the instance is
left untouched, so the stored `updated_at` equals the previous value (the
current time is not even an input of `save`).  The final conjunct evaluates
the replace path at a concrete instance whose `updated_at` is `dt 5`: the
written payload still carries `dt 5`. -/
theorem save_replace_path_keeps_updated_at :
    (∀ (schema : Schema) (meta : MetaFlags) (idv : Value)
        (fs : List (String × Value)) (new_id : Value),
        (save schema meta ⟨some idv, fs⟩ new_id).fst = ⟨some idv, fs⟩
          ∧ (save schema meta ⟨some idv, fs⟩ new_id).snd
              = to_dict false schema ⟨some idv, fs⟩)
      ∧ ((save [] ⟨true, true, true⟩
            ⟨some (.oid model_generated_oid),
              [("username", .str "jd"), ("updated_at", .dt 5)]⟩
            (.oid model_generated_oid)).snd.lookup "updated_at"
          = some (.dt 5)) := by
  refine ⟨fun schema meta idv fs new_id => ⟨rfl, rfl⟩, rfl⟩

/-- C9: a 2-element `[longitude, latitude]` pair or a GeoJSON Point mapping
is accepted exactly when the longitude lies in [-180, 180] and the latitude
in [-90, 90], raising `GeoCoordinateError` otherwise; the stored form is
always the GeoJSON mapping; retrieval returns the bare coordinate pair under
`return_as_list` and the full mapping otherwise; `[200, 10]` raises while
`[40.73, -73.93]` succeeds and round-trips as that exact pair. -/
theorem geojson_field_validation_and_roundtrip :
    ∀ (parse : String → Option Nat) (req : Bool) (now : Nat) (lon lat : Rat),
      (flat_set parse (.geoF true) req .none (.list [.float lon, .float lat]) now
        = if ((-90 : Rat) ≤ lat ∧ lat ≤ 90) ∧ ((-180 : Rat) ≤ lon ∧ lon ≤ 180)
          then .ok (geo_point_of (.float lon) (.float lat))
          else .error .geoCoordinateError)
      ∧ (flat_set parse (.geoF true) req .none
            (geo_point_of (.float lon) (.float lat)) now
        = if ((-90 : Rat) ≤ lat ∧ lat ≤ 90) ∧ ((-180 : Rat) ≤ lon ∧ lon ≤ 180)
          then .ok (geo_point_of (.float lon) (.float lat))
          else .error .geoCoordinateError)
      ∧ geo_get true (geo_point_of (.float lon) (.float lat))
          = .list [.float lon, .float lat]
      ∧ geo_get false (geo_point_of (.float lon) (.float lat))
          = geo_point_of (.float lon) (.float lat)
      ∧ flat_set parse (.geoF true) req .none (.list [.float 200, .float 10]) now
          = .error .geoCoordinateError
      ∧ flat_set parse (.geoF true) req .none
            (.list [.float (4073 / 100), .float (-7393 / 100)]) now
          = .ok (geo_point_of (.float (4073 / 100)) (.float (-7393 / 100))) := by
  intro parse req now lon lat
  have hbase : ∀ lonV latV : Value,
      base_set req is_geo_type (geo_point_of lonV latV)
        = .ok (geo_point_of lonV latV) := by
    intro lonV latV
    exact base_set_ok req is_geo_type _ rfl rfl
  refine ⟨?_, ?_, rfl, rfl, ?_, ?_⟩
  · by_cases hgood : ((-90 : Rat) ≤ lat ∧ lat ≤ 90) ∧ ((-180 : Rat) ≤ lon ∧ lon ≤ 180)
    · have hc : geo_coords_ok lon lat = true := (geo_coords_ok_iff lon lat).mpr hgood
      rw [if_pos hgood]
      simp [flat_set, as_rat, hc, hbase]
    · have hc : geo_coords_ok lon lat = false :=
        Bool.eq_false_iff.mpr (fun h => hgood ((geo_coords_ok_iff lon lat).mp h))
      rw [if_neg hgood]
      simp [flat_set, as_rat, hc]
  · by_cases hgood : ((-90 : Rat) ≤ lat ∧ lat ≤ 90) ∧ ((-180 : Rat) ≤ lon ∧ lon ≤ 180)
    · have hc : geo_coords_ok lon lat = true := (geo_coords_ok_iff lon lat).mpr hgood
      rw [if_pos hgood]
      simp [flat_set, geo_point_of, as_rat, List.lookup, hc]
      simpa [geo_point_of] using hbase (.float lon) (.float lat)
    · have hc : geo_coords_ok lon lat = false :=
        Bool.eq_false_iff.mpr (fun h => hgood ((geo_coords_ok_iff lon lat).mp h))
      rw [if_neg hgood]
      simp [flat_set, geo_point_of, as_rat, List.lookup, hc]
  · have hc : geo_coords_ok 200 10 = false := by
      rw [Bool.eq_false_iff]
      intro h
      have h2 := (geo_coords_ok_iff 200 10).mp h
      norm_num at h2
    simp [flat_set, as_rat, hc]
  · have hc : geo_coords_ok (4073 / 100) (-7393 / 100) = true :=
      (geo_coords_ok_iff _ _).mpr (by norm_num)
    simp [flat_set, as_rat, hc, hbase]

/-- C10: `convert_id` maps over the filter entries; every string value
that parses as an `ObjectId` (24 hex characters) is converted — at any key,
recursively through nested mappings — unparsable strings and non-string
values are left unchanged, and the function is total (never raises); as a
consequence an equality filter on an ordinary string field whose stored
value is a 24-character hex string is rewritten to an `ObjectId` and no
longer matches the stored string. -/
theorem convert_id_rewrites_parsable_strings :
    (∀ q, convert_id q = q.map (fun kv => (kv.fst, convert_value kv.snd)))
    ∧ (∀ s, convert_value (.str s)
        = if isObjectIdString s then .oid s else .str s)
    ∧ (∀ kvs, convert_value (.dict kvs) = .dict (convert_id kvs))
    ∧ (∀ n, convert_value (.int n) = .int n)
    ∧ (∀ items, convert_value (.list items) = .list items)
    ∧ (∀ s, isObjectIdString s = false → convert_value (.str s) = .str s)
    ∧ (∀ s, isObjectIdString s = true → convert_value (.str s) ≠ .str s)
    ∧ (∀ k s, isObjectIdString s = true →
        doc_matches (convert_id [(k, .str s)]) [(k, .str s)] = false) := by
  refine ⟨?_, fun s => rfl, fun kvs => rfl, fun n => rfl, fun items => rfl,
    ?_, ?_, ?_⟩
  · intro q
    show convert_entries q = _
    induction q with
    | nil => rfl
    | cons kv rest ih =>
        obtain ⟨k, v⟩ := kv
        simp [convert_entries, ih]
  · intro s h
    simp [convert_value, h]
  · intro s h
    simp [convert_value, h]
  · intro k s h
    show ((convert_entries [(k, .str s)]).all _) = false
    simp [convert_entries, convert_value, h, doc_matches, List.lookup, value_beq]

/-- C10 witness: a username filter whose value is a concrete 24-hex string
is rewritten to an `ObjectId` and no longer matches the stored string. -/
theorem convert_id_rewrites_parsable_strings_witness :
    isObjectIdString "507f191e810c19729de860ea" = true
    ∧ convert_value (.str "507f191e810c19729de860ea")
        ≠ .str "507f191e810c19729de860ea"
    ∧ doc_matches (convert_id [("username", .str "507f191e810c19729de860ea")])
        [("username", .str "507f191e810c19729de860ea")] = false :=
  ⟨rfl,
    convert_id_rewrites_parsable_strings.2.2.2.2.2.2.1
      "507f191e810c19729de860ea" rfl,
    convert_id_rewrites_parsable_strings.2.2.2.2.2.2.2
      "username" "507f191e810c19729de860ea" rfl⟩

/-- C7: a query with no matching document makes `find_one` return `None`
(it does not raise), while `find_one_and_delete` raises — the not-found
error, re-raised wrapped in the delete-error kind — instead of returning
`None`. -/
theorem not_found_policy :
    ∀ (parse : String → Option Nat) (schema : Schema)
      (db : List (List (String × Value))) (query : List (String × Value))
      (now : Nat),
      (collection_find_one db (convert_id query) = Option.none →
        find_one_model parse schema db query now = .ok Option.none)
      ∧ (collection_find_one_and_delete db query = Option.none →
        find_one_and_delete_model parse schema db query now
          = .error (.documentDeleteError (some .documentNotFoundError))) := by
  intro parse schema db query now
  constructor
  · intro h
    simp [find_one_model, h]
  · intro h
    simp [find_one_and_delete_model, h]

/-- C7 witness: on the empty collection, `find_one` yields `None` and
`find_one_and_delete` the raised delete-error wrapping not-found. -/
theorem not_found_policy_witness :
    (collection_find_one [] (convert_id [("age", Value.int 1)]) = Option.none
      ∧ collection_find_one_and_delete [] [("age", Value.int 1)] = Option.none)
    ∧ find_one_model (fun _ => Option.none) [] [] [("age", Value.int 1)] 0
        = .ok Option.none
    ∧ find_one_and_delete_model (fun _ => Option.none) [] [] [("age", Value.int 1)] 0
        = .error (.documentDeleteError (some .documentNotFoundError)) :=
  ⟨⟨rfl, rfl⟩,
    (not_found_policy (fun _ => Option.none) [] [] [("age", Value.int 1)] 0).1 rfl,
    (not_found_policy (fun _ => Option.none) [] [] [("age", Value.int 1)] 0).2 rfl⟩

/-- C6 counterexample: with query `x = 0` matching a stored record whose `x`
is the falsy `0`, the update key `x` is in the absent-or-falsy subset the
claim says gets applied (second conjunct: that subset is all of
`update_fields`), yet the operation reports `updated=False` and returns the
record unchanged, because document.py 899 additionally excludes every key
that appears in the query. -/
theorem empty_fields_fill_query_key_counterexample :
    find_one_and_update_empty_fields_model
        [[("username", .str "jd"), ("x", .int 0)]] [("x", .int 0)] [("x", .int 5)]
      = .not_updated [("username", .str "jd"), ("x", .int 0)]
    ∧ [("x", Value.int 5)].filter (fun kv =>
        (([("username", Value.str "jd"), ("x", Value.int 0)].lookup kv.fst).isNone
          || falsy (([("username", Value.str "jd"),
              ("x", Value.int 0)].lookup kv.fst).getD .none)))
        = [("x", Value.int 5)] :=
  ⟨rfl, rfl⟩

/-- C6 amended: when a document matches, the operation applies exactly the
subset of `update_fields` whose keys are absent or falsy in the existing
record AND do not appear among the query's keys — reporting `updated=True`
iff that subset is non-empty and returning the existing record unchanged
with `updated=False` otherwise; when no document matches it raises (a
`DocumentUpdateError` wrapping the not-found condition). -/
theorem empty_fields_fill_behaviour :
    ∀ (db : List (List (String × Value))) (query u : List (String × Value)),
      (∀ ex, collection_find_one db query = some ex →
        find_one_and_update_empty_fields_model db query u
          = if (empty_fields_subset ex u query).isEmpty then .not_updated ex
            else .updated_with (empty_fields_subset ex u query))
      ∧ (collection_find_one db query = Option.none →
          find_one_and_update_empty_fields_model db query u
            = .raised (.documentUpdateError (some .documentNotFoundError)))
      ∧ (∀ ex kv, kv ∈ empty_fields_subset ex u query
          ↔ kv ∈ u
            ∧ ((ex.lookup kv.fst).isNone = true
                ∨ falsy ((ex.lookup kv.fst).getD .none) = true)
            ∧ (query.lookup kv.fst).isNone = true) := by
  intro db query u
  refine ⟨?_, ?_, ?_⟩
  · intro ex h
    simp [find_one_and_update_empty_fields_model, h]
  · intro h
    simp [find_one_and_update_empty_fields_model, h]
  · intro ex kv
    simp [empty_fields_subset, List.mem_filter, Bool.and_eq_true, Bool.or_eq_true,
      and_assoc]

/-- C6 amended, witness: a record matching the empty query gets its absent
field `b` filled (`updated=True` with exactly that subset). -/
theorem empty_fields_fill_behaviour_witness :
    collection_find_one [[("a", Value.int 1)]] [] = some [("a", Value.int 1)]
    ∧ find_one_and_update_empty_fields_model [[("a", Value.int 1)]] [] [("b", Value.int 2)]
        = if (empty_fields_subset [("a", Value.int 1)] [("b", Value.int 2)] []).isEmpty
          then .not_updated [("a", Value.int 1)]
          else .updated_with (empty_fields_subset [("a", Value.int 1)] [("b", Value.int 2)] []) :=
  ⟨rfl,
    (empty_fields_fill_behaviour [[("a", Value.int 1)]] [] [("b", Value.int 2)]).1
      [("a", Value.int 1)] rfl⟩

theorem contains_iff_mem (l : List String) (s : String) :
    l.contains s = true ↔ s ∈ l := by
  induction l with
  | nil => simp
  | cons a rest ih => simp [List.contains_cons, ih]

theorem contains_eq_false_iff (l : List String) (s : String) :
    l.contains s = false ↔ s ∉ l := by
  rw [Bool.eq_false_iff]
  exact not_congr (contains_iff_mem l s)

/-- C4: one run of index synchronisation drops exactly the existing named
indexes outside the declared set (unique-field indexes union explicitly
declared indexes) that are not the default `_id_` index, and a second run on
the resulting state with an unchanged declaration issues zero create and
zero drop calls. -/
theorem index_reconciliation_idempotent :
    ∀ (schema : Schema) (decls : List IndexDecl) (existing : List String),
      (run_creates schema decls (run_post_state schema decls existing) = []
        ∧ run_drops schema decls (run_post_state schema decls existing) = [])
      ∧ (∀ n, n ∈ run_drops schema decls existing
          ↔ n ∈ existing ∧ n ∉ declared_index_names schema decls ∧ n ≠ "_id_") := by
  intro schema decls existing
  have hdrops : ∀ n, n ∈ run_drops schema decls existing
      ↔ n ∈ existing ∧ n ∉ declared_index_names schema decls ∧ n ≠ "_id_" := by
    intro n
    simp only [run_drops, List.mem_filter, bne_iff_ne, ne_eq, Bool.not_eq_true',
      contains_eq_false_iff]
    tauto
  have hpost : ∀ n, n ∈ run_post_state schema decls existing
      ↔ ((n ∈ existing ∧ ¬ (n ∈ run_drops schema decls existing))
          ∨ (n ∈ declared_index_names schema decls ∧ n ∉ existing)) := by
    intro n
    simp only [run_post_state, run_creates, List.mem_append, List.mem_filter,
      Bool.not_eq_true', contains_eq_false_iff]
  have hdecl_in_post : ∀ n, n ∈ declared_index_names schema decls →
      n ∈ run_post_state schema decls existing := by
    intro n hn
    rcases Classical.em (n ∈ existing) with he | he
    · exact (hpost n).mpr (Or.inl ⟨he, fun hd => ((hdrops n).mp hd).2.1 hn⟩)
    · exact (hpost n).mpr (Or.inr ⟨hn, he⟩)
  refine ⟨⟨?_, ?_⟩, hdrops⟩
  · rw [run_creates, List.filter_eq_nil_iff]
    intro n hn
    simp only [Bool.not_eq_true', contains_eq_false_iff, not_not]
    exact hdecl_in_post n hn
  · rw [run_drops, List.filter_eq_nil_iff]
    intro n hn
    rw [List.mem_filter] at hn
    obtain ⟨hmem, hp⟩ := hn
    have hnotdecl : n ∉ declared_index_names schema decls := by
      simpa [Bool.not_eq_true', contains_eq_false_iff] using hp
    rcases (hpost n).mp hmem with ⟨hex, hnd⟩ | ⟨hd, _⟩
    · simp only [bne_iff_ne, ne_eq, not_not]
      by_contra hneq
      exact hnd ((hdrops n).mpr ⟨hex, hnotdecl, hneq⟩)
    · exact absurd hd hnotdecl

theorem init_fields_key_mem (parse : String → Option Nat) (now : Nat) :
    ∀ (schema : Schema) (kwargs fs : List (String × Value)),
      init_fields parse schema kwargs now = .ok fs →
      ∀ n v, fs.lookup n = some v → n ∈ schema.map Prod.fst := by
  intro schema
  induction schema with
  | nil =>
      intro kwargs fs h n v hl
      simp only [init_fields, Except.ok.injEq] at h
      rw [← h] at hl
      simp [List.lookup] at hl
  | cons ns rest ih =>
      obtain ⟨name, spec⟩ := ns
      intro kwargs fs h n v hl
      simp only [init_fields] at h
      by_cases hnone : ((kwargs.lookup name).getD (spec.default.getD .none)).is_none = true
      · rw [if_pos hnone] at h
        simpa using Or.inr (ih kwargs fs h n v hl)
      · rw [if_neg hnone] at h
        cases hks : kind_set parse spec.kind spec.required .none
            ((kwargs.lookup name).getD (spec.default.getD .none)) now with
        | error e => rw [hks] at h; simp [Bind.bind, Except.bind] at h
        | ok v2 =>
            rw [hks] at h
            cases hrest : init_fields parse rest kwargs now with
            | error e => rw [hrest] at h; simp [Bind.bind, Except.bind] at h
            | ok tail =>
                rw [hrest] at h
                simp only [Bind.bind, Except.bind, Except.ok.injEq] at h
                rw [← h] at hl
                rw [lookup_cons_entry] at hl
                by_cases hn : n == name
                · have : n = name := by simpa using hn
                  simp [this]
                · rw [if_neg hn] at hl
                  simpa using Or.inr (ih kwargs tail hrest n v hl)

theorem init_fields_lookup_of_kwargs_none (parse : String → Option Nat)
    (now : Nat) (k : String) :
    ∀ (schema : Schema) (kwargs fs : List (String × Value)),
      (schema.map Prod.fst).Nodup →
      kwargs.lookup k = Option.none →
      init_fields parse schema kwargs now = .ok fs →
      fs.lookup k = Option.none
        ∨ ∃ spec dv v2, schema.lookup k = some spec ∧ spec.default = some dv
            ∧ kind_set parse spec.kind spec.required .none dv now = .ok v2
            ∧ fs.lookup k = some v2 := by
  intro schema
  induction schema with
  | nil =>
      intro kwargs fs _ _ h
      simp only [init_fields, Except.ok.injEq] at h
      left
      rw [← h]
      rfl
  | cons ns rest ih =>
      obtain ⟨name, spec⟩ := ns
      intro kwargs fs hnodup hk h
      simp only [List.map_cons, List.nodup_cons] at hnodup
      obtain ⟨hname_not, hnodup_rest⟩ := hnodup
      simp only [init_fields] at h
      by_cases hkn : k = name
      · subst hkn
        have hres : (kwargs.lookup k).getD (spec.default.getD .none)
            = spec.default.getD .none := by rw [hk]; rfl
        rw [hres] at h
        by_cases hdn : (spec.default.getD .none).is_none = true
        · rw [if_pos hdn] at h
          left
          have hnotmem : k ∉ rest.map Prod.fst := hname_not
          rcases hfs : fs.lookup k with _ | v
          · rfl
          · exact absurd (init_fields_key_mem parse now rest kwargs fs h k v hfs)
              hnotmem
        · rw [if_neg hdn] at h
          cases hks : kind_set parse spec.kind spec.required .none
              (spec.default.getD .none) now with
          | error e => rw [hks] at h; simp [Bind.bind, Except.bind] at h
          | ok v2 =>
              rw [hks] at h
              cases hrest : init_fields parse rest kwargs now with
              | error e => rw [hrest] at h; simp [Bind.bind, Except.bind] at h
              | ok tail =>
                  rw [hrest] at h
                  simp only [Bind.bind, Except.bind, Except.ok.injEq] at h
                  right
                  obtain ⟨dv, hdv⟩ : ∃ dv, spec.default = some dv := by
                    cases hd : spec.default with
                    | none => rw [hd] at hdn; simp [Value.is_none] at hdn
                    | some dv => exact ⟨dv, rfl⟩
                  have hdvv : spec.default.getD .none = dv := by rw [hdv]; rfl
                  refine ⟨spec, dv, v2, ?_, hdv, ?_, ?_⟩
                  · simp [lookup_cons_entry]
                  · rw [← hdvv]; exact hks
                  · rw [← h, lookup_cons_entry]
                    simp
      · have hne : ¬((k == name) = true) := by simpa using hkn
        by_cases hnone : ((kwargs.lookup name).getD (spec.default.getD .none)).is_none = true
        · rw [if_pos hnone] at h
          rcases ih kwargs fs hnodup_rest hk h with hl | ⟨spec2, dv, v2, hsl, hdv, hks, hfl⟩
          · exact Or.inl hl
          · exact Or.inr ⟨spec2, dv, v2, by rw [lookup_cons_entry, if_neg hne]; exact hsl,
              hdv, hks, hfl⟩
        · rw [if_neg hnone] at h
          cases hks : kind_set parse spec.kind spec.required .none
              ((kwargs.lookup name).getD (spec.default.getD .none)) now with
          | error e => rw [hks] at h; simp [Bind.bind, Except.bind] at h
          | ok v2 =>
              rw [hks] at h
              cases hrest : init_fields parse rest kwargs now with
              | error e => rw [hrest] at h; simp [Bind.bind, Except.bind] at h
              | ok tail =>
                  rw [hrest] at h
                  simp only [Bind.bind, Except.bind, Except.ok.injEq] at h
                  have hfl : fs.lookup k = tail.lookup k := by
                    rw [← h, lookup_cons_entry, if_neg hne]
                  rcases ih kwargs tail hnodup_rest hk hrest with hl | ⟨spec2, dv, v2b, hsl, hdv, hks2, hfl2⟩
                  · exact Or.inl (by rw [hfl]; exact hl)
                  · exact Or.inr ⟨spec2, dv, v2b, by rw [lookup_cons_entry, if_neg hne]; exact hsl,
                      hdv, hks2, by rw [hfl]; exact hfl2⟩

theorem init_doc_fields (parse : String → Option Nat) (schema : Schema)
    (kwargs : List (String × Value)) (now : Nat) (st : DocState)
    (h : init_doc parse schema kwargs now = .ok st) :
    init_fields parse schema kwargs now = .ok st.fields := by
  simp only [init_doc, Bind.bind, Except.bind, Pure.pure, Except.pure] at h
  by_cases hc : ((kwargs.lookup "_id").isSome || (kwargs.lookup "id").isSome) = true
  · rw [if_pos hc] at h
    cases hobj : object_id_of ((kwargs.lookup "_id").getD .none) with
    | error e => rw [hobj] at h; simp at h
    | ok idv =>
        rw [hobj] at h
        simp only at h
        cases hflds : init_fields parse schema kwargs now with
        | error e => rw [hflds] at h; simp at h
        | ok flds =>
            rw [hflds] at h
            simp only [Except.ok.injEq] at h
            rw [← h]
  · rw [if_neg hc] at h
    cases hflds : init_fields parse schema kwargs now with
    | error e => rw [hflds] at h; simp at h
    | ok flds =>
        rw [hflds] at h
        simp only [Except.ok.injEq] at h
        rw [← h]

/-- C8 counterexample: with query `status = "active"` and update fields
`age := 5` on a class whose `status` field has default `"new"`, the `$set`
payload contains `status := "new"`: the query key was stripped from the
update fields, but the payload is the serialized validated instance, whose
construction resolves the missing `status` to its declared default — so the
matched-on field IS overwritten by the update payload. -/
theorem update_payload_overwrites_query_key_via_default :
    update_one_payload (fun _ => Option.none)
        [("status", ⟨.flat (.stringF Option.none Option.none), false, false,
            some (.str "new")⟩),
         ("age", ⟨.flat (.integerF Option.none Option.none), false, false,
            Option.none⟩)]
        ⟨false, false, false⟩
        [("status", .str "active")] [("age", .int 5)] 0
      = .ok [("status", .str "new"), ("age", .int 5)]
    ∧ ([("status", Value.str "new"), ("age", Value.int 5)].lookup "status"
        = some (.str "new")) :=
  ⟨rfl, rfl⟩

/-- C8 amended: every key that appears in the query is removed from
`update_fields` before validation (first conjunct: the stripped update
fields no longer bind any query key); however the applied payload is the
serialized validated instance built from the remaining fields, so a
matched-on key other than `_id` can still appear in the payload — exactly
when it is a declared field whose default fills it back in (second
conjunct). -/
theorem update_one_payload_query_keys :
    ∀ (parse : String → Option Nat) (schema : Schema) (meta : MetaFlags)
      (query u : List (String × Value)) (now : Nat)
      (payload : List (String × Value)),
      (schema.map Prod.fst).Nodup →
      update_one_payload parse schema meta query u now = .ok payload →
      ∀ k, (query.lookup k).isSome = true →
        (((add_timestamps_if_required meta "update" u now).filter
            (fun kv => (((convert_id query).lookup kv.fst).isNone))).lookup k
          = Option.none)
        ∧ (k ≠ "_id" →
            payload.lookup k = Option.none
            ∨ ∃ spec dv v2, schema.lookup k = some spec ∧ spec.default = some dv
                ∧ kind_set parse spec.kind spec.required .none dv now = .ok v2
                ∧ payload.lookup k
                    = some (serialize_value false (some spec.kind) v2)) := by
  intro parse schema meta query u now payload hnodup hok k hq
  have hconv_some : ((convert_id query).lookup k).isNone = false := by
    rcases hs : query.lookup k with _ | v
    · rw [hs] at hq; simp at hq
    · simp only [convert_id]
      rw [lookup_convert_entries, hs]
      rfl
  have hfilter : ((add_timestamps_if_required meta "update" u now).filter
      (fun kv => (((convert_id query).lookup kv.fst).isNone))).lookup k
        = Option.none := by
    rw [lookup_filter_key (fun n => ((convert_id query).lookup n).isNone) k _,
      hconv_some]
    simp
  refine ⟨hfilter, ?_⟩
  intro hkid
  simp only [update_one_payload, Bind.bind, Except.bind, Pure.pure, Except.pure] at hok
  cases hinit : init_doc parse schema
      ((add_timestamps_if_required meta "update" u now).filter
        (fun kv => (((convert_id query).lookup kv.fst).isNone))) now with
  | error e => rw [hinit] at hok; simp at hok
  | ok inst =>
      rw [hinit] at hok
      simp only [Except.ok.injEq] at hok
      have hflds : init_fields parse schema
          ((add_timestamps_if_required meta "update" u now).filter
            (fun kv => (((convert_id query).lookup kv.fst).isNone))) now
          = .ok inst.fields := init_doc_fields _ _ _ _ _ hinit
      have hpl : payload.lookup k
          = (to_dict_fields false schema inst.fields).lookup k := by
        rw [← hok]
        rw [to_dict]
        cases hid : inst.id_val with
        | none => rfl
        | some idv =>
            simp only
            rw [lookup_cons_entry]
            have : ¬((k == "_id") = true) := by simpa using hkid
            rw [if_neg this]
      rw [hpl, lookup_to_dict_fields]
      rcases init_fields_lookup_of_kwargs_none parse now k schema _ inst.fields
          hnodup hfilter hflds with hl | ⟨spec, dv, v2, hsl, hdv, hks, hfl⟩
      · left
        rw [hl]
        rfl
      · right
        refine ⟨spec, dv, v2, hsl, hdv, hks, ?_⟩
        rw [hfl]
        simp [lookup_kind, hsl]

/-- C8 amended, witness: the concrete default-reintroduction scenario,
with every hypothesis discharged. -/
theorem update_one_payload_query_keys_witness :
    ((([("status", (⟨.flat (.stringF Option.none Option.none), false, false,
            some (.str "new")⟩ : FieldSpec)),
        ("age", ⟨.flat (.integerF Option.none Option.none), false, false,
            Option.none⟩)].map Prod.fst).Nodup)
      ∧ (([("status", Value.str "active")] : List (String × Value)).lookup
            "status").isSome = true
      ∧ "status" ≠ "_id")
    ∧ ((add_timestamps_if_required ⟨false, false, false⟩ "update"
          [("age", Value.int 5)] 0).filter
          (fun kv =>
            (((convert_id [("status", Value.str "active")]).lookup kv.fst).isNone))).lookup
          "status" = Option.none
    ∧ (([("status", Value.str "new"), ("age", Value.int 5)] :
          List (String × Value)).lookup "status" = Option.none
        ∨ ∃ spec dv v2,
            ([("status", (⟨.flat (.stringF Option.none Option.none), false, false,
                some (.str "new")⟩ : FieldSpec)),
              ("age", ⟨.flat (.integerF Option.none Option.none), false, false,
                Option.none⟩)] : Schema).lookup "status" = some spec
            ∧ spec.default = some dv
            ∧ kind_set (fun _ => Option.none) spec.kind spec.required .none dv 0
                = .ok v2
            ∧ ([("status", Value.str "new"), ("age", Value.int 5)] :
                List (String × Value)).lookup "status"
                = some (serialize_value false (some spec.kind) v2)) :=
  ⟨⟨by decide, rfl, by decide⟩,
    (update_one_payload_query_keys (fun _ => Option.none)
      [("status", ⟨.flat (.stringF Option.none Option.none), false, false,
          some (.str "new")⟩),
       ("age", ⟨.flat (.integerF Option.none Option.none), false, false,
          Option.none⟩)]
      ⟨false, false, false⟩ [("status", .str "active")] [("age", .int 5)] 0
      [("status", .str "new"), ("age", .int 5)]
      (by decide) rfl "status" rfl).1,
    (update_one_payload_query_keys (fun _ => Option.none)
      [("status", ⟨.flat (.stringF Option.none Option.none), false, false,
          some (.str "new")⟩),
       ("age", ⟨.flat (.integerF Option.none Option.none), false, false,
          Option.none⟩)]
      ⟨false, false, false⟩ [("status", .str "active")] [("age", .int 5)] 0
      [("status", .str "new"), ("age", .int 5)]
      (by decide) rfl "status" rfl).2 (by decide)⟩

end Motormongo


namespace Motormongo

theorem valid_geo_elim (ral : Bool) (kvs : List (String × Value))
    (h : valid_stored_flat (.geoF ral) (.dict kvs) = true) :
    ∃ a b lon lat, kvs.lookup "type" = some (.str "Point")
      ∧ kvs.lookup "coordinates" = some (.list [a, b])
      ∧ as_rat a = some lon ∧ as_rat b = some lat
      ∧ geo_coords_ok lon lat = true := by
  simp only [valid_stored_flat, Bool.and_eq_true] at h
  obtain ⟨h1, h2⟩ := h
  split at h1
  case h_2 => simp at h1
  case h_1 vt hty =>
    split at h2
    case h_2 => simp at h2
    case h_1 a b hco =>
      rcases ha : as_rat a with _ | lon
      · rw [ha] at h2; simp at h2
      · rcases hb : as_rat b with _ | lat
        · rw [ha, hb] at h2; simp at h2
        · rw [ha, hb] at h2
          simp only at h2
          exact ⟨a, b, lon, lat, hty, hco, ha, hb, h2⟩

end Motormongo
namespace Motormongo

theorem flat_roundtrip (parse : String → Option Nat) (k : FlatKind) (v : Value)
    (hval : valid_stored_flat k v = true) (hadd : flat_no_auto_add k = true)
    (req ias : Bool) (now : Nat) :
    flat_set parse k req .none (serialize_value ias (some (.flat k)) v) now
        = .ok (flat_restore k v)
      ∧ flat_get k (flat_restore k v) = flat_get k v := by
  cases k with
  | stringF minL maxL =>
      cases v
      case str s =>
        simp only [valid_stored_flat, Bool.and_eq_true, Bool.not_eq_true'] at hval
        refine ⟨?_, rfl⟩
        simp [serialize_value, flat_set, string_validate, hval.1, hval.2,
          flat_restore, base_set, Value.is_none, is_string, Bool.and_false,
          Bind.bind, Except.bind]
      all_goals exact absurd hval (by simp [valid_stored_flat])
  | integerF minV maxV =>
      cases v
      case int n =>
        simp only [valid_stored_flat, Bool.and_eq_true, Bool.not_eq_true'] at hval
        refine ⟨?_, rfl⟩
        simp [serialize_value, flat_set, integer_validate, hval.1, hval.2,
          flat_restore, base_set, Value.is_none, is_int, Bool.and_false,
          Bind.bind, Except.bind]
      all_goals exact absurd hval (by simp [valid_stored_flat])
  | floatF minV maxV =>
      cases v
      case float q =>
        simp only [valid_stored_flat, Bool.and_eq_true, Bool.not_eq_true'] at hval
        refine ⟨?_, rfl⟩
        simp [serialize_value, flat_set, hval.1, hval.2,
          flat_restore, base_set, Value.is_none, is_float, Bool.and_false,
          Bind.bind, Except.bind]
      all_goals exact absurd hval (by simp [valid_stored_flat])
  | booleanF =>
      cases v
      case bool b =>
        refine ⟨?_, rfl⟩
        simp [serialize_value, flat_set, boolean_validate,
          flat_restore, base_set, Value.is_none, is_bool, Bool.and_false,
          Bind.bind, Except.bind]
      all_goals exact absurd hval (by simp [valid_stored_flat])
  | dateTimeF a add =>
      simp only [flat_no_auto_add, Bool.not_eq_true'] at hadd
      subst hadd
      cases v
      case dt t =>
        refine ⟨?_, rfl⟩
        simp [serialize_value, flat_set, dt_handle_input,
          flat_restore, base_set, Value.is_none, is_dt_like, Bool.and_false, falsy,
          Bind.bind, Except.bind]
      all_goals exact absurd hval (by simp [valid_stored_flat])
  | enumF ms =>
      cases v
      case enum s =>
        simp only [valid_stored_flat] at hval
        have hmem : s ∈ ms := (contains_iff_mem ms s).mp hval
        refine ⟨?_, rfl⟩
        simp [serialize_value, flat_set, enum_validate, hval, hmem,
          flat_restore, base_set, Value.is_none, is_enum_member, Bool.and_false,
          Bind.bind, Except.bind]
      all_goals exact absurd hval (by simp [valid_stored_flat])
  | referenceF =>
      cases v
      case oid s =>
        simp only [valid_stored_flat] at hval
        refine ⟨?_, rfl⟩
        cases ias <;>
          simp [serialize_value, flat_set, reference_validate, hval,
            flat_restore, base_set, Value.is_none, is_oid, Bool.and_false,
            Bind.bind, Except.bind]
      all_goals exact absurd hval (by simp [valid_stored_flat])
  | geoF ral =>
      cases v
      case dict kvs =>
        obtain ⟨cA, cB, lon, lat, hty, hco, ha, hb, hgc⟩ := valid_geo_elim ral kvs hval
        cases ral
        · refine ⟨?_, rfl⟩
          simp [serialize_value, flat_set, hty, hco, ha, hb, hgc,
            flat_restore, base_set, Value.is_none, is_geo_type, Bool.and_false,
            Bind.bind, Except.bind]
        · constructor
          · simp [serialize_value, flat_set, hco, ha, hb, hgc,
              flat_restore, base_set, Value.is_none, is_geo_type, Bool.and_false,
              geo_point_of, Bind.bind, Except.bind]
          · simp [flat_get, geo_get, geo_point_of, flat_restore, hty, hco, List.lookup]
      all_goals exact absurd hval (by simp [valid_stored_flat])

end Motormongo
namespace Motormongo

theorem serialize_flat_nonnone (ias : Bool) (k : FlatKind) (v : Value)
    (hval : valid_stored_flat k v = true) :
    (serialize_value ias (some (.flat k)) v).is_none = false := by
  cases k <;> cases v <;>
    first
      | (simp [valid_stored_flat] at hval; done)
      | (simp [serialize_value, Value.is_none]; done)
      | (cases ias <;> simp [serialize_value, Value.is_none]; done)
      | (rename_i ral kvs
         obtain ⟨cA, cB, lon, lat, hty, hco, ha, hb, hgc⟩ :=
           valid_geo_elim ral kvs hval
         cases ral <;> simp [serialize_value, hco, Value.is_none])

theorem flat_item_roundtrip (k : FlatKind) (v : Value)
    (hval : valid_stored_flat k v = true) :
    flat_item_validate k (serialize_value false Option.none v) = .ok v := by
  cases k <;> cases v <;>
    first
      | (simp [valid_stored_flat] at hval; done)
      | (simp [serialize_value, flat_item_validate]; done)
      | skip
  case stringF.str minL maxL s =>
      simp only [valid_stored_flat, Bool.and_eq_true, Bool.not_eq_true'] at hval
      simp [serialize_value, flat_item_validate, string_validate, hval.1, hval.2]
  case integerF.int minV maxV n =>
      simp only [valid_stored_flat, Bool.and_eq_true, Bool.not_eq_true'] at hval
      simp [serialize_value, flat_item_validate, integer_validate, hval.1, hval.2]
  case booleanF.bool b =>
      simp [serialize_value, flat_item_validate, boolean_validate]
  case enumF.enum ms s =>
      simp only [valid_stored_flat] at hval
      have hmem : s ∈ ms := (contains_iff_mem ms s).mp hval
      simp [serialize_value, flat_item_validate, enum_validate, hmem]
  case referenceF.oid s =>
      simp only [valid_stored_flat] at hval
      simp [serialize_value, flat_item_validate, reference_validate, hval]

end Motormongo
namespace Motormongo

theorem lookup_of_mem_nodup {α : Type} {l : List (String × α)} {n : String}
    {k : α} (hmem : (n, k) ∈ l) (hnodup : (l.map Prod.fst).Nodup) :
    l.lookup n = some k := by
  induction l with
  | nil => simp at hmem
  | cons nk rest ih =>
      obtain ⟨m, k2⟩ := nk
      simp only [List.map_cons, List.nodup_cons] at hnodup
      obtain ⟨hnot, hrest⟩ := hnodup
      rcases List.mem_cons.mp hmem with heq | htail
      · cases heq
        simp [lookup_cons_entry]
      · have hnm : n ≠ m := by
          intro he
          subst he
          exact hnot (by simpa using List.mem_map_of_mem Prod.fst htail)
        rw [lookup_cons_entry, if_neg (by simpa using hnm)]
        exact ih htail hrest

theorem flat_get_restore (k : FlatKind) (v : Value)
    (hval : valid_stored_flat k v = true) :
    flat_get k (flat_restore k v) = flat_get k v := by
  cases k <;> cases v <;>
    first
      | (simp [valid_stored_flat] at hval; done)
      | (simp [flat_restore]; done)
      | (rename_i ral kvs
         obtain ⟨cA, cB, lon, lat, hty, hco, ha, hb, hgc⟩ :=
           valid_geo_elim ral kvs hval
         cases ral
         · simp [flat_restore]
         · simp [flat_get, geo_get, geo_point_of, flat_restore, hty, hco,
             List.lookup])

mutual

theorem serialize_fixed_id (v : Value) (h : serialize_fixed v = true) :
    serialize_value false Option.none v = v := by
  cases v <;>
    first
      | (simp [serialize_fixed] at h; done)
      | (simp [serialize_value]; done)
      | (rename_i items
         have hl := serialize_fixed_list_id items (by simpa [serialize_fixed] using h)
         simp [serialize_value, hl])

theorem serialize_fixed_list_id (items : List Value)
    (h : serialize_fixed_list items = true) : serialize_items items = items := by
  cases items with
  | nil => rfl
  | cons v rest =>
      simp only [serialize_fixed_list, Bool.and_eq_true] at h
      simp [serialize_items, serialize_fixed_id v h.1,
        serialize_fixed_list_id rest h.2]

end

end Motormongo
namespace Motormongo

theorem lookup_emb_restore (schema : List (String × FlatKind))
    (flds : List (String × Value)) (n : String)
    (hnodup : (schema.map Prod.fst).Nodup) :
    (emb_restore schema flds).lookup n
      = match schema.lookup n with
        | some k => (flds.lookup n).map (flat_restore k)
        | Option.none => Option.none := by
  induction schema with
  | nil => rfl
  | cons nk rest ih =>
      obtain ⟨name, k⟩ := nk
      simp only [List.map_cons, List.nodup_cons] at hnodup
      obtain ⟨hnot, hrest⟩ := hnodup
      by_cases hn : n = name
      · subst hn
        have hrestnone : rest.lookup n = Option.none :=
          lookup_eq_none_of_not_mem_keys n rest hnot
        rcases hf : flds.lookup n with _ | v
        · simp only [emb_restore, List.filterMap_cons, hf, Option.map_none']
          have := ih hrest
          simp only [emb_restore] at this
          rw [this, hrestnone, lookup_cons_entry]
          simp [hf]
        · simp only [emb_restore, List.filterMap_cons, hf, Option.map_some']
          rw [lookup_cons_entry, if_pos (by simp), lookup_cons_entry,
            if_pos (by simp)]
      · have hne : ¬((n == name) = true) := by simpa using hn
        rcases hf : flds.lookup name with _ | v
        · simp only [emb_restore, List.filterMap_cons, hf, Option.map_none']
          have := ih hrest
          simp only [emb_restore] at this
          rw [this, lookup_cons_entry, if_neg hne]
        · simp only [emb_restore, List.filterMap_cons, hf, Option.map_some']
          rw [lookup_cons_entry, if_neg hne]
          have := ih hrest
          simp only [emb_restore] at this
          rw [this, lookup_cons_entry, if_neg hne]

end Motormongo
namespace Motormongo

theorem emb_fields_valid_elim (schema0 : List (String × FlatKind))
    (flds : List (String × Value))
    (hvalid : flds.all (fun kv =>
        match schema0.lookup kv.fst with
        | some k => valid_stored_flat k kv.snd
        | Option.none => false) = true)
    {n : String} {v : Value} (hf : flds.lookup n = some v) :
    ∃ k, schema0.lookup n = some k ∧ valid_stored_flat k v = true := by
  have hmem := mem_of_lookup_eq_some hf
  have := (List.all_eq_true.mp hvalid) (n, v) hmem
  rcases hs : schema0.lookup n with _ | k
  · rw [hs] at this; simp at this
  · rw [hs] at this; exact ⟨k, rfl, this⟩

theorem emb_init_roundtrip_aux (parse : String → Option Nat) (now : Nat)
    (ias : Bool) (schema0 : List (String × FlatKind))
    (flds : List (String × Value))
    (hvalid : flds.all (fun kv =>
        match schema0.lookup kv.fst with
        | some k => valid_stored_flat k kv.snd
        | Option.none => false) = true)
    (haddall : schema0.all (fun nk => flat_no_auto_add nk.snd) = true) :
    ∀ sub : List (String × FlatKind),
      (∀ nk ∈ sub, schema0.lookup nk.fst = some nk.snd) →
      emb_init parse sub (serialize_fields ias schema0 flds) now
        = .ok (sub.filterMap (fun nk =>
            (flds.lookup nk.fst).map (fun v => (nk.fst, flat_restore nk.snd v)))) := by
  intro sub
  induction sub with
  | nil => intro _; rfl
  | cons nk rest ih =>
      obtain ⟨name, k⟩ := nk
      intro hsub
      have hk0 : schema0.lookup name = some k := hsub (name, k) (List.mem_cons_self _ _)
      have hrest := fun nk2 h2 => hsub nk2 (List.mem_cons_of_mem _ h2)
      have hkw : (serialize_fields ias schema0 flds).lookup name
          = (flds.lookup name).map (serialize_value ias (lookup_flat schema0 name)) :=
        lookup_serialize_fields ias schema0 name flds
      have hlf : lookup_flat schema0 name = some (.flat k) := by
        simp [lookup_flat, hk0]
      simp only [emb_init]
      rcases hf : flds.lookup name with _ | v
      · rw [hf] at hkw
        simp only [Option.map_none'] at hkw
        rw [hkw]
        simp only [Option.getD_none, Value.is_none, if_pos]
        rw [ih hrest]
        simp [List.filterMap_cons, hf]
      · rw [hf] at hkw
        simp only [Option.map_some'] at hkw
        rw [hkw, hlf]
        obtain ⟨k2, hk2, hvalv⟩ := emb_fields_valid_elim schema0 flds hvalid hf
        rw [hk0] at hk2
        cases hk2
        have hnn := serialize_flat_nonnone ias k v hvalv
        have hadd_k : flat_no_auto_add k = true :=
          (List.all_eq_true.mp haddall) (name, k) (mem_of_lookup_eq_some hk0)
        have hfr := (flat_roundtrip parse k v hvalv hadd_k false ias now).1
        simp only [Option.getD_some]
        rw [if_neg (by simp [hnn])]
        rw [hfr, ih hrest]
        simp [Bind.bind, Except.bind, List.filterMap_cons, hf]

end Motormongo
namespace Motormongo

theorem emb_logical_restore (schema : List (String × FlatKind))
    (flds : List (String × Value))
    (hnodup : (schema.map Prod.fst).Nodup)
    (hvalid : flds.all (fun kv =>
        match schema.lookup kv.fst with
        | some k => valid_stored_flat k kv.snd
        | Option.none => false) = true) :
    emb_logical schema (emb_restore schema flds) = emb_logical schema flds := by
  unfold emb_logical
  apply List.map_congr_left
  intro nk hmem
  obtain ⟨n, k⟩ := nk
  simp only [Prod.mk.injEq, true_and]
  have hlk : schema.lookup n = some k := lookup_of_mem_nodup hmem hnodup
  rw [lookup_emb_restore schema flds n hnodup, hlk]
  rcases hf : flds.lookup n with _ | v
  · simp
  · simp only [Option.map_some', Option.getD_some]
    obtain ⟨k2, hk2, hvalv⟩ := emb_fields_valid_elim schema flds hvalid hf
    rw [hlk] at hk2
    cases hk2
    exact flat_get_restore k v hvalv

theorem item_roundtrip (parse : String → Option Nat) (now : Nat) (it : ItemKind)
    (v : Value) (hval : valid_stored_item it v = true)
    (hadd : item_no_auto_add it = true) :
    item_validate parse it (serialize_value false Option.none v) now
        = .ok (item_restore it v)
      ∧ item_logical it (item_restore it v) = item_logical it v := by
  cases it with
  | flatI k =>
      refine ⟨?_, rfl⟩
      simp only [valid_stored_item] at hval
      simp [item_validate, item_restore, flat_item_roundtrip k v hval]
  | embI schema =>
      cases v <;>
        first
          | (simp [valid_stored_item] at hval; done)
          | skip
      case emb schema2 flds =>
        simp only [valid_stored_item, Bool.and_eq_true, beq_iff_eq] at hval
        obtain ⟨hseq, hv⟩ := hval
        subst hseq
        simp only [valid_stored_emb, Bool.and_eq_true, decide_eq_true_eq] at hv
        obtain ⟨hnodup, hvalid⟩ := hv
        simp only [item_no_auto_add] at hadd
        have haux := emb_init_roundtrip_aux parse now false schema2 flds hvalid hadd
          schema2 (fun nk h => lookup_of_mem_nodup h hnodup)
        constructor
        · simp [serialize_value, item_validate, embedded_validate, haux,
            item_restore, emb_restore]
        · simp only [item_restore, item_logical]
          rw [emb_logical_restore schema2 flds hnodup hvalid]

theorem all_serialize_fixed_eq (items : List Value) :
    items.all serialize_fixed = serialize_fixed_list items := by
  induction items with
  | nil => rfl
  | cons v rest ih => simp [List.all_cons, serialize_fixed_list, ih]

theorem list_items_roundtrip (parse : String → Option Nat) (now : Nat)
    (it : ItemKind) (items : List Value)
    (hval : items.all (valid_stored_item it) = true)
    (hadd : item_no_auto_add it = true) :
    list_items_validate parse it (serialize_items items) now
      = .ok (items.map (item_restore it)) := by
  induction items with
  | nil => rfl
  | cons v rest ih =>
      simp only [List.all_cons, Bool.and_eq_true] at hval
      have h1 := (item_roundtrip parse now it v hval.1 hadd).1
      simp [serialize_items, list_items_validate, h1, ih hval.2]

theorem kind_roundtrip (parse : String → Option Nat) (fk : FieldKind) (v : Value)
    (hval : valid_stored_kind fk v = true) (hadd : kind_no_auto_add fk = true)
    (req ias : Bool) (now : Nat) :
    kind_set parse fk req .none (serialize_value ias (some fk) v) now
        = .ok (kind_restore fk v)
      ∧ kind_logical fk (kind_restore fk v) = kind_logical fk v := by
  cases fk with
  | flat k => exact flat_roundtrip parse k v hval hadd req ias now
  | listF item =>
      cases item with
      | some it =>
          cases v <;>
            first
              | (simp [valid_stored_kind] at hval; done)
              | skip
          case list items =>
            simp only [valid_stored_kind] at hval
            simp only [kind_no_auto_add] at hadd
            have hli := list_items_roundtrip parse now it items hval hadd
            constructor
            · simp [serialize_value, kind_set, list_set, hli, kind_restore,
                base_set, Value.is_none, is_list, Bool.and_false,
                Bind.bind, Except.bind]
            · simp only [kind_restore, kind_logical, List.map_map]
              congr 1
              apply List.map_congr_left
              intro a hmem
              exact (item_roundtrip parse now it a
                ((List.all_eq_true.mp hval) a hmem) hadd).2
      | none =>
          cases v <;>
            first
              | (simp [valid_stored_kind] at hval; done)
              | skip
          case list items =>
            simp only [valid_stored_kind] at hval
            rw [all_serialize_fixed_eq] at hval
            have hsid := serialize_fixed_list_id items hval
            refine ⟨?_, rfl⟩
            simp [serialize_value, kind_set, list_set, hsid, kind_restore,
              base_set, Value.is_none, is_list, Bool.and_false]
  | embF schema =>
      cases v <;>
        first
          | (simp [valid_stored_kind] at hval; done)
          | skip
      case emb schema2 flds =>
        simp only [valid_stored_kind, Bool.and_eq_true, beq_iff_eq] at hval
        obtain ⟨hseq, hv⟩ := hval
        subst hseq
        simp only [valid_stored_emb, Bool.and_eq_true, decide_eq_true_eq] at hv
        obtain ⟨hnodup, hvalid⟩ := hv
        simp only [kind_no_auto_add] at hadd
        have haux := emb_init_roundtrip_aux parse now ias schema2 flds hvalid hadd
          schema2 (fun nk h => lookup_of_mem_nodup h hnodup)
        constructor
        · simp [serialize_value, kind_set, embedded_validate, haux,
            kind_restore, emb_restore, base_set, Value.is_none,
            is_dict_or_embedded, Bool.and_false, Bind.bind, Except.bind]
        · simp only [kind_restore, kind_logical]
          rw [emb_logical_restore schema2 flds hnodup hvalid]

end Motormongo
namespace Motormongo

theorem doc_fields_valid_elim (schema : Schema) (flds : List (String × Value))
    (hvalid : flds.all (fun kv =>
        match schema.lookup kv.fst with
        | some spec => valid_stored_kind spec.kind kv.snd
        | Option.none => false) = true)
    {n : String} {v : Value} (hf : flds.lookup n = some v) :
    ∃ spec, schema.lookup n = some spec ∧ valid_stored_kind spec.kind v = true := by
  have hmem := mem_of_lookup_eq_some hf
  have hvv := (List.all_eq_true.mp hvalid) (n, v) hmem
  rcases hs : schema.lookup n with _ | spec
  · rw [hs] at hvv; simp at hvv
  · rw [hs] at hvv; exact ⟨spec, rfl, hvv⟩

theorem serialize_kind_nonnone (ias : Bool) (fk : FieldKind) (v : Value)
    (hval : valid_stored_kind fk v = true) :
    (serialize_value ias (some fk) v).is_none = false := by
  cases fk with
  | flat k => exact serialize_flat_nonnone ias k v hval
  | listF item =>
      cases item <;> cases v <;>
        first
          | (simp [valid_stored_kind] at hval; done)
          | (simp [serialize_value, Value.is_none]; done)
  | embF schema =>
      cases v <;>
        first
          | (simp [valid_stored_kind] at hval; done)
          | (simp [serialize_value, Value.is_none]; done)

end Motormongo
namespace Motormongo

theorem defaults_ok_elim (parse : String → Option Nat) (schema : Schema)
    (now : Nat) (hdef : defaults_ok parse schema now = true)
    {name : String} {spec : FieldSpec} (hmem : (name, spec) ∈ schema)
    {dv : Value} (hdv : spec.default = some dv) (hnn : dv.is_none = false) :
    ∃ v2, kind_set parse spec.kind spec.required .none dv now = .ok v2 := by
  have h := (List.all_eq_true.mp hdef) (name, spec) hmem
  simp only [hdv] at h
  rw [if_neg (by simp [hnn])] at h
  rcases hks : kind_set parse spec.kind spec.required .none dv now with e | v2
  · rw [hks] at h; simp at h
  · exact ⟨v2, rfl⟩

end Motormongo
namespace Motormongo

theorem init_fields_roundtrip_aux (parse : String → Option Nat) (now : Nat)
    (schema0 : Schema) (stf : List (String × Value))
    (kwargs : List (String × Value))
    (hkw : ∀ n spec, schema0.lookup n = some spec →
      kwargs.lookup n = (stf.lookup n).map (serialize_value true (some spec.kind)))
    (hvalid : stf.all (fun kv =>
        match schema0.lookup kv.fst with
        | some spec => valid_stored_kind spec.kind kv.snd
        | Option.none => false) = true)
    (haddall : schema0.all (fun ns => kind_no_auto_add ns.snd.kind) = true)
    (hdef : defaults_ok parse schema0 now = true) :
    ∀ sub : Schema,
      (∀ nk ∈ sub, schema0.lookup nk.fst = some nk.snd) →
      ∃ fs2, init_fields parse sub kwargs now = .ok fs2
        ∧ ∀ n spec v, sub.lookup n = some spec → stf.lookup n = some v →
            fs2.lookup n = some (kind_restore spec.kind v) := by
  intro sub
  induction sub with
  | nil => exact fun _ => ⟨[], rfl, by simp [List.lookup]⟩
  | cons nk rest ih =>
      obtain ⟨name, spec⟩ := nk
      intro hsub
      have hk0 : schema0.lookup name = some spec :=
        hsub (name, spec) (List.mem_cons_self _ _)
      have hmem0 : (name, spec) ∈ schema0 := mem_of_lookup_eq_some hk0
      have hrest := fun nk2 h2 => hsub nk2 (List.mem_cons_of_mem _ h2)
      obtain ⟨tail, htail, htail_prop⟩ := ih hrest
      have hkn : kwargs.lookup name
          = (stf.lookup name).map (serialize_value true (some spec.kind)) :=
        hkw name spec hk0
      simp only [init_fields]
      rcases hf : stf.lookup name with _ | v
      · rw [hf] at hkn
        simp only [Option.map_none'] at hkn
        rw [hkn]
        simp only [Option.getD_none]
        rcases hd : spec.default with _ | dv
        · simp only [Option.getD_none, Value.is_none, if_pos]
          refine ⟨tail, htail, ?_⟩
          intro n spec2 v hsl hfl
          rw [lookup_cons_entry] at hsl
          by_cases hn : (n == name) = true
          · have : n = name := by simpa using hn
            subst this
            rw [hf] at hfl
            cases hfl
          · rw [if_neg hn] at hsl
            exact htail_prop n spec2 v hsl hfl
        · simp only [Option.getD_some]
          by_cases hdn : dv.is_none = true
          · rw [if_pos hdn]
            refine ⟨tail, htail, ?_⟩
            intro n spec2 v hsl hfl
            rw [lookup_cons_entry] at hsl
            by_cases hn : (n == name) = true
            · have : n = name := by simpa using hn
              subst this
              rw [hf] at hfl
              cases hfl
            · rw [if_neg hn] at hsl
              exact htail_prop n spec2 v hsl hfl
          · rw [if_neg (by simpa using hdn)]
            obtain ⟨v2, hks⟩ := defaults_ok_elim parse schema0 now hdef hmem0 hd
              (by simpa using hdn)
            rw [hks, htail]
            refine ⟨(name, v2) :: tail, by simp [Bind.bind, Except.bind], ?_⟩
            intro n spec2 v hsl hfl
            rw [lookup_cons_entry] at hsl
            rw [lookup_cons_entry]
            by_cases hn : (n == name) = true
            · have : n = name := by simpa using hn
              subst this
              rw [hf] at hfl
              cases hfl
            · rw [if_neg hn] at hsl
              rw [if_neg hn]
              exact htail_prop n spec2 v hsl hfl
      · rw [hf] at hkn
        simp only [Option.map_some'] at hkn
        rw [hkn]
        simp only [Option.getD_some]
        obtain ⟨spec2, hsp2, hvalv⟩ := doc_fields_valid_elim schema0 stf hvalid hf
        rw [hk0] at hsp2
        cases hsp2
        have hnn := serialize_kind_nonnone true spec.kind v hvalv
        have hadd_k : kind_no_auto_add spec.kind = true :=
          (List.all_eq_true.mp haddall) (name, spec) hmem0
        have hfr := (kind_roundtrip parse spec.kind v hvalv hadd_k spec.required
          true now).1
        rw [if_neg (by simp [hnn])]
        rw [hfr, htail]
        refine ⟨(name, kind_restore spec.kind v) :: tail,
          by simp [Bind.bind, Except.bind], ?_⟩
        intro n spec2 w hsl hfl
        rw [lookup_cons_entry] at hsl
        rw [lookup_cons_entry]
        by_cases hn : (n == name) = true
        · have : n = name := by simpa using hn
          subst this
          rw [if_pos hn] at hsl
          rw [if_pos hn]
          cases hsl
          rw [hf] at hfl
          cases hfl
          rfl
        · rw [if_neg hn] at hsl
          rw [if_neg hn]
          exact htail_prop n spec2 w hsl hfl

end Motormongo
namespace Motormongo

/-- C2: serializing a valid document via `to_dict()` and re-constructing via
`from_dict` (which funnels into `Document.__init__`) round-trips: the identity
re-enters as the native `ObjectId` recovered from its string form, and every
stored field value is recovered up to the field's logical (`__get__`) view —
provided no declared field is a `DateTimeField` with `auto_now_add=True` and
every declared default passes its field's validation. -/
theorem to_dict_from_dict_roundtrip (parse : String → Option Nat)
    (schema : Schema) (st : DocState) (now : Nat)
    (hvalid : valid_doc schema st = true)
    (haddall : schema.all (fun ns => kind_no_auto_add ns.snd.kind) = true)
    (hdef : defaults_ok parse schema now = true) :
    ∃ st2, init_doc parse schema (to_dict true schema st) now = .ok st2
      ∧ st2.id_val = st.id_val
      ∧ ∀ n spec v, schema.lookup n = some spec → st.fields.lookup n = some v →
          st2.fields.lookup n = some (kind_restore spec.kind v)
            ∧ kind_logical spec.kind (kind_restore spec.kind v)
                = kind_logical spec.kind v := by
  simp only [valid_doc, Bool.and_eq_true] at hvalid
  obtain ⟨⟨⟨⟨hnodup, hnid⟩, hnid2⟩, hflds⟩, hid⟩ := hvalid
  have hnodup2 : (schema.map Prod.fst).Nodup := of_decide_eq_true hnodup
  have hnid3 : "_id" ∉ schema.map Prod.fst := by
    simpa using hnid
  have hnid4 : "id" ∉ schema.map Prod.fst := by
    simpa using hnid2
  have hnotin : ∀ n spec, schema.lookup n = some spec →
      n ≠ "_id" ∧ n ≠ "id" := by
    intro n spec hl
    have hmem : n ∈ schema.map Prod.fst :=
      List.mem_map_of_mem Prod.fst (mem_of_lookup_eq_some hl)
    constructor
    · intro he; rw [he] at hmem; exact hnid3 hmem
    · intro he; rw [he] at hmem; exact hnid4 hmem
  have hfl_none : ∀ n, n ∉ schema.map Prod.fst →
      st.fields.lookup n = Option.none := by
    intro n hn
    rcases hf : st.fields.lookup n with _ | v
    · rfl
    · obtain ⟨spec, hsp, _⟩ := doc_fields_valid_elim schema st.fields hflds hf
      exact absurd (List.mem_map_of_mem Prod.fst (mem_of_lookup_eq_some hsp)) hn
  have hkw : ∀ n spec, schema.lookup n = some spec →
      (to_dict true schema st).lookup n
        = (st.fields.lookup n).map (serialize_value true (some spec.kind)) := by
    intro n spec hl
    have hne := (hnotin n spec hl).1
    have hlk : lookup_kind schema n = some spec.kind := by
      simp [lookup_kind, hl]
    simp only [to_dict]
    cases st.id_val with
    | none => rw [lookup_to_dict_fields, hlk]
    | some idv =>
        rw [lookup_cons_entry, if_neg (by simpa using hne),
          lookup_to_dict_fields, hlk]
  obtain ⟨fs2, hfs2, hprop⟩ := init_fields_roundtrip_aux parse now schema
    st.fields (to_dict true schema st) hkw hflds haddall hdef schema
    (fun nk h2 => lookup_of_mem_nodup h2 hnodup2)
  have hmain : ∀ n spec v, schema.lookup n = some spec →
      st.fields.lookup n = some v →
      fs2.lookup n = some (kind_restore spec.kind v)
        ∧ kind_logical spec.kind (kind_restore spec.kind v)
            = kind_logical spec.kind v := by
    intro n spec v hl hf
    refine ⟨hprop n spec v hl hf, ?_⟩
    obtain ⟨spec2, hsp2, hvalv⟩ := doc_fields_valid_elim schema st.fields hflds hf
    rw [hl] at hsp2
    cases hsp2
    have hadd_k : kind_no_auto_add spec.kind = true :=
      (List.all_eq_true.mp haddall) (n, spec) (mem_of_lookup_eq_some hl)
    exact (kind_roundtrip parse spec.kind v hvalv hadd_k spec.required true now).2
  cases hidv : st.id_val with
  | none =>
      have h1 : (to_dict true schema st).lookup "_id" = Option.none := by
        simp only [to_dict, hidv]
        rw [lookup_to_dict_fields, hfl_none "_id" hnid3]
        rfl
      have h2 : (to_dict true schema st).lookup "id" = Option.none := by
        simp only [to_dict, hidv]
        rw [lookup_to_dict_fields, hfl_none "id" hnid4]
        rfl
      refine ⟨⟨Option.none, fs2⟩, ?_, rfl, hmain⟩
      simp only [init_doc, h1, h2, Option.isSome_none, Bool.or_self,
        Bool.false_eq_true, if_neg, hfs2]
      simp [Bind.bind, Except.bind, Pure.pure, Except.pure]
  | some idv =>
      rw [hidv] at hid
      cases idv <;> try (simp at hid; done)
      rename_i s
      have hids : isObjectIdString s = true := by simpa using hid
      have h1 : (to_dict true schema st).lookup "_id"
          = some (.str s) := by
        simp only [to_dict, hidv]
        rw [lookup_cons_entry, if_pos (by simp)]
        rfl
      refine ⟨⟨some (.oid s), fs2⟩, ?_, rfl, hmain⟩
      simp only [init_doc, h1, Option.isSome_some, Bool.true_or, if_pos,
        Option.getD_some, object_id_of, if_pos hids, hfs2]
      simp [Bind.bind, Except.bind, Pure.pure, Except.pure]

end Motormongo
namespace Motormongo

/-- C2 counterexample: a stored `auto_now_add=True` `DateTimeField` value does
not round-trip. `to_dict` emits the stored `dt 5` unchanged, but
`DateTimeField.__set__` during re-construction finds the fresh instance empty
and stamps the current time `7` over it, so the rebuilt document holds `dt 7`,
a different datetime. -/
theorem roundtrip_fails_for_auto_now_add :
    valid_doc [("ts", ⟨.flat (.dateTimeF false true), false, false, Option.none⟩)]
        ⟨Option.none, [("ts", .dt 5)]⟩ = true
    ∧ init_doc (fun _ => Option.none)
        [("ts", ⟨.flat (.dateTimeF false true), false, false, Option.none⟩)]
        (to_dict true
          [("ts", ⟨.flat (.dateTimeF false true), false, false, Option.none⟩)]
          ⟨Option.none, [("ts", .dt 5)]⟩) 7
        = .ok ⟨Option.none, [("ts", .dt 7)]⟩
    ∧ Value.dt 7 ≠ Value.dt 5 := by
  refine ⟨rfl, rfl, by simp⟩

/-- C2 amended, witness: a concrete two-field document (a required string and
a bounded-free integer) with a set identity round-trips exactly. -/
theorem to_dict_from_dict_roundtrip_witness :
    (valid_doc
        [("name", ⟨.flat (.stringF Option.none Option.none), true, false,
            Option.none⟩),
         ("age", ⟨.flat (.integerF Option.none Option.none), false, false, Option.none⟩)]
        ⟨some (.oid "507f1f77bcf86cd799439011"),
          [("name", .str "alice"), ("age", .int 3)]⟩ = true)
    ∧ (∃ st2, init_doc (fun _ => Option.none)
        [("name", ⟨.flat (.stringF Option.none Option.none), true, false,
            Option.none⟩),
         ("age", ⟨.flat (.integerF Option.none Option.none), false, false, Option.none⟩)]
        (to_dict true
          [("name", ⟨.flat (.stringF Option.none Option.none), true, false,
              Option.none⟩),
           ("age", ⟨.flat (.integerF Option.none Option.none), false, false, Option.none⟩)]
          ⟨some (.oid "507f1f77bcf86cd799439011"),
            [("name", .str "alice"), ("age", .int 3)]⟩) 0
        = .ok st2
      ∧ st2.id_val = some (.oid "507f1f77bcf86cd799439011")
      ∧ ∀ n spec v,
          ([("name", ⟨.flat (.stringF Option.none Option.none), true, false,
              Option.none⟩),
            ("age", ⟨.flat (.integerF Option.none Option.none), false, false, Option.none⟩)] :
            Schema).lookup n = some spec →
          ([("name", .str "alice"), ("age", .int 3)] :
            List (String × Value)).lookup n = some v →
          st2.fields.lookup n = some (kind_restore spec.kind v)
            ∧ kind_logical spec.kind (kind_restore spec.kind v)
                = kind_logical spec.kind v) :=
  ⟨rfl, to_dict_from_dict_roundtrip (fun _ => Option.none) _ _ 0 rfl rfl rfl⟩

end Motormongo
